import Mathlib

/-! QT1244 driver: register protocol layer

A shallow embedding of `qt1244.cpp` / `qt1244.h` (the STM32F4 configuration, the
only one in which the translation unit is well formed: the headers of
`hardwareReset` and `changeStatus` sit inside `#if defined (STM32F4)`).

* `uint8_t` and `unsigned long` values are natural numbers, reduced `% 2^w`
  wherever the C code can overflow.
* The bus, GPIO and delay primitives of `i2c.h` / `delay.h` are not part of the
  sources. Every call of one of them is recorded, in program order, in a log of
  `Effect`s; the byte a bus read returns is supplied by a `Hardware` parameter.
* The controller object is the structure `QT1244` with its single field
  `DEVADDR`; member functions take it explicitly and return the new one when
  they can change it.
-/

/-- The class `QT1244` of `qt1244.h`: its only data member is the private
`uint8_t DEVADDR`. -/
structure QT1244 where
  DEVADDR : Nat
  deriving DecidableEq, Repr

/-- One call of a primitive of the collaborators behind `i2c.h` and `delay.h`
(`qt1244Init`, `qt1244Write`, `qt1244Read`, `HAL_GPIO_WritePin`,
`HAL_GPIO_ReadPin`, `Delay_us`), with the arguments it was called with. -/
inductive Effect where
  | i2cInit
  | busWrite (dev reg val : Nat)
  | busRead (dev reg : Nat)
  | gpioWrite (port pin : Nat) (level : Bool)
  | gpioRead (port pin : Nat)
  | delayUs (n : Nat)
  deriving DecidableEq, Repr

/-- Modelled from the spec: the answers of the external collaborators `busRead`
and `gpioRead` (`qt1244Read` of the absent `i2c.h` and `HAL_GPIO_ReadPin` in the
code). `busReply n dev reg` is the byte the device at bus address `dev` returns
for a read of register `reg` issued after `n` earlier effects, `pinLevel n port
pin` the level of a GPIO pin read at that moment. Both may change from one
moment to the next. -/
structure Hardware where
  busReply : Nat → Nat → Nat → Nat
  pinLevel : Nat → Nat → Nat → Nat

/-- The part of the ST HAL's `I2C_HandleTypeDef` the driver looks at. The
handle `qt1244Init()` returns is a parameter of `begin`. -/
structure I2C_HandleTypeDef where
  State : Nat
  deriving DecidableEq, Repr

namespace QT1244

/-! ## Constants of `qt1244.h` -/

def QT1244_ADDR_1 : Nat := 57
def QT1244_ADDR_2 : Nat := 7
def QT1244_ADDR_3 : Nat := 17
def QT1244_ADDR_4 : Nat := 117

def STATUS_ADDR : Nat := 5
def KEY_0TO7_ADDR : Nat := 6
def KEY_8TO15_ADDR : Nat := 7
def KEY_16TO23_ADDR : Nat := 8
def COMMAND_ADDR : Nat := 140

def CALIBRATE_KEY_ALL : Nat := 0xFF
def SETUPS_WRITE_ENABLE : Nat := 0xFE
def LOW_LEVEL_CAL_AND_OFFSET : Nat := 0xFD
def FORCE_RESET : Nat := 0x18
def CALIBRATE_KEY_0 : Nat := 0
def CALIBRATE_KEY_1 : Nat := 1
def CALIBRATE_KEY_2 : Nat := 2
def CALIBRATE_KEY_3 : Nat := 3
def CALIBRATE_KEY_4 : Nat := 4
def CALIBRATE_KEY_5 : Nat := 5
def CALIBRATE_KEY_6 : Nat := 6
def CALIBRATE_KEY_7 : Nat := 7
def CALIBRATE_KEY_8 : Nat := 8
def CALIBRATE_KEY_9 : Nat := 9
def CALIBRATE_KEY_10 : Nat := 10
def CALIBRATE_KEY_11 : Nat := 11
def CALIBRATE_KEY_12 : Nat := 12
def CALIBRATE_KEY_13 : Nat := 13
def CALIBRATE_KEY_14 : Nat := 14
def CALIBRATE_KEY_15 : Nat := 15
def CALIBRATE_KEY_16 : Nat := 16
def CALIBRATE_KEY_17 : Nat := 17
def CALIBRATE_KEY_18 : Nat := 18
def CALIBRATE_KEY_19 : Nat := 19
def CALIBRATE_KEY_20 : Nat := 20
def CALIBRATE_KEY_21 : Nat := 21
def CALIBRATE_KEY_22 : Nat := 22
def CALIBRATE_KEY_23 : Nat := 23

def NTHR_PTHR_NDRIFT_BL_ADDR : Nat := 141
def NTHR_PTHR_VALUE : Nat := 3
def NDRIFT_VALUE : Nat := 4
def BL_VALUE : Nat := 0

def NDIL_FDIL_AKS_WAKE_ADDR : Nat := 165
def NDIL_VALUE : Nat := 2
def FDIL_VALUE : Nat := 3
def AKS_VALUE : Nat := 1
def WAKE_VALUE : Nat := 1

def CFO_1_ADDR : Nat := 189
def CFO_2_ADDR : Nat := 213
def CFO_1_VALUE : Nat := 0
def CFO_2_VALUE : Nat := 0

def NRD_ADDR : Nat := 237
def NRD_VALUE : Nat := 20

def SLEEP_MSYNC_NHYST_DEBUG_ADDR : Nat := 238
def SLEEP_VALUE : Nat := 0
def MSYNC_VALUE : Nat := 0
def NHYST_VALUE : Nat := 1
def DEBUG_VALUE : Nat := 0

def AWAKE_ADDR : Nat := 239
def AWAKE_VALUE : Nat := 25

def DHT_ADDR : Nat := 240
def DHT_VALUE : Nat := 0

def PDRIFT_SSYNC_ADDR : Nat := 241
def PDRIFT_VALUE : Nat := 4
def SSYNC_VALUE : Nat := 0

def LSLlsb_ADDR : Nat := 242
def LSLmsb_KGTT_ADDR : Nat := 243
def LSLlsb_VALUE : Nat := 100
def LSLmsb_VALUE : Nat := 0
def KGTT_VALUE : Nat := 6

def DWELL_RIB_THRM_FHM_ADDR : Nat := 244
def DWELL_VALUE : Nat := 0
def RIB_VALUE : Nat := 0
def THRM_VALUE : Nat := 0
def FHM_VALUE : Nat := 3

def FREQ0_ADDR : Nat := 245
def FREQ0_VALUE : Nat := 1

def FREQ1_ADDR : Nat := 246
def FREQ1_VALUE : Nat := 6

def FREQ2_ADDR : Nat := 247
def FREQ2_VALUE : Nat := 63

def NSTHR_NIL_ADDR : Nat := 248
def NSTHR_VALUE : Nat := 2
def NIL_VALUE : Nat := 3

def HCRClsb_ADDR : Nat := 249
def HCRCmsb_ADDR : Nat := 250

/-! ## The CRC routine -/

/-- One pass through the body of the `do ... while (--index)` loop of
`CRC16BitCalc`, on an `unsigned long` of `W` bits:
`if (crc & 0x8000) crc = (crc << 1) ^ 0x1021; else crc = crc << 1;`. -/
def crcRound (W crc : Nat) : Nat :=
  if crc &&& 0x8000 ≠ 0 then ((crc <<< 1) % 2 ^ W) ^^^ 0x1021
  else (crc <<< 1) % 2 ^ W

/-- The loop `do { body } while (--index);` entered with shift counter `index`.
The body runs, the counter is decremented, and the loop goes on while the
decremented counter is not zero. The source enters it with `index = 8` only;
the entry `index = 0` (which in C would wrap to 255) does not occur and is
mapped to no iteration. -/
def crcDoWhile (W : Nat) : Nat → Nat → Nat
  | 0, crc => crc
  | index + 1, crc =>
    let crc := crcRound W crc
    if index ≠ 0 then crcDoWhile W index crc else crc

/-- The function `unsigned long CRC16BitCalc(unsigned long crc, unsigned char data)`,
for an `unsigned long` of `W` bits (32 on the STM32F4). -/
def CRC16BitCalc (W : Nat) (crc data : Nat) : Nat :=
  let crc := (crc % 2 ^ W) ^^^ (((data % 256) <<< 8) % 2 ^ W)
  crcDoWhile W 8 crc

/-- The use the doc comment of `CRC16BitCalc` prescribes: start from 0 and fold
the result back into the parameter `crc` for each byte of the block. -/
def crcFold (W : Nat) (init : Nat) (bytes : List Nat) : Nat :=
  bytes.foldl (CRC16BitCalc W) init

/-- One bit step of the textbook MSB-first CRC-16 with generator `poly`
(the polynomial without its `x^16` term) on a 16-bit register. -/
def refCrcRound (poly crc : Nat) : Nat :=
  if crc &&& 0x8000 ≠ 0 then ((crc <<< 1) % 2 ^ 16) ^^^ poly
  else (crc <<< 1) % 2 ^ 16

/-- The reference byte update the specification words describe: XOR the byte
into the high 8 bits of the 16-bit register, then eight bit steps. -/
def refCrcUpdate (poly crc data : Nat) : Nat :=
  Nat.iterate (refCrcRound poly) 8 ((crc % 2 ^ 16) ^^^ ((data % 256) <<< 8))

/-- The reference checksum of a byte sequence for the polynomial
`x^16 + x^15 + x^2 + 1`, that is `0x8005`: initial value 0, MSB first, no
augmentation. -/
def refCrc16_8005 (bytes : List Nat) : Nat :=
  bytes.foldl (refCrcUpdate 0x8005) 0

/-! ## The collaborators -/

/-- The value `HAL_I2C_STATE_READY` of the ST HAL (`0x20`). -/
def HAL_I2C_STATE_READY : Nat := 0x20

def GPIO_PIN_RESET : Bool := false
def GPIO_PIN_SET : Bool := true

/-- Modelled from the spec: the collaborator `busWrite(deviceAddress,
registerAddress, byte)`, which the code calls as `qt1244Write(devAddr, regAddr,
value)` and whose body (behind `i2c.h`) is not in the sources: one register
write on the bus, carrying one byte. -/
def qt1244Write (dev reg val : Nat) (log : List Effect) : List Effect :=
  log ++ [Effect.busWrite dev reg (val % 256)]

/-- Modelled from the spec: the collaborator `busRead(deviceAddress,
registerAddress) -> byte`, which the code calls as `qt1244Read(devAddr,
regAddr)` and whose body (behind `i2c.h`) is not in the sources: one register
read on the bus, returning a `uint8_t`. -/
def qt1244Read (hw : Hardware) (dev reg : Nat) (log : List Effect) : Nat × List Effect :=
  (hw.busReply log.length dev reg % 256, log ++ [Effect.busRead dev reg])

/-! ## Member functions of `QT1244` -/

/-- The wait `while (hi2c.State != HAL_I2C_STATE_READY);` of `begin` on the
local copy `hi2c`. Nothing in the loop changes the copy; `fuel` bounds the
number of times the condition is tested, and `none` means the loop was still
running when the fuel ran out. -/
def waitReady (hi2c : I2C_HandleTypeDef) : Nat → Option Unit
  | 0 => none
  | fuel + 1 => if hi2c.State ≠ HAL_I2C_STATE_READY then waitReady hi2c fuel else some ()

/-- The function `bool QT1244::begin(uint8_t devAddr)`. `hi2c` is the handle
`qt1244Init()` returns. The result is `none` when the wait loop does not end
within `fuel` tests. -/
def begin (hi2c : I2C_HandleTypeDef) (fuel : Nat) (q : QT1244) (devAddr : Nat)
    (log : List Effect) : Option (Bool × QT1244 × List Effect) :=
  let q : QT1244 :=
    if devAddr = 57 then { q with DEVADDR := (QT1244_ADDR_1 <<< 1) % 256 }
    else if devAddr = 7 then { q with DEVADDR := (QT1244_ADDR_2 <<< 1) % 256 }
    else if devAddr = 17 then { q with DEVADDR := (QT1244_ADDR_3 <<< 1) % 256 }
    else if devAddr = 117 then { q with DEVADDR := (QT1244_ADDR_4 <<< 1) % 256 }
    else q
  let log := log ++ [Effect.i2cInit]
  match waitReady hi2c fuel with
  | none => none
  | some _ => some (true, q, log)

/-- The packing expression of register 141 in `setups`. -/
def pack_NTHR_PTHR_NDRIFT_BL (bl ndrift nthr_pthr : Nat) : Nat :=
  (bl <<< 6) ||| (ndrift <<< 3) ||| nthr_pthr

/-- The packing expression of register 165 in `setups`. -/
def pack_NDIL_FDIL_AKS_WAKE (wake aks fdil ndil : Nat) : Nat :=
  (wake <<< 7) ||| (aks <<< 6) ||| (fdil <<< 3) ||| ndil

/-- The packing expression of register 238 in `setups`. -/
def pack_SLEEP_MSYNC_NHYST_DEBUG (debug nhyst msync sleep : Nat) : Nat :=
  (debug <<< 6) ||| (nhyst <<< 4) ||| (msync <<< 3) ||| sleep

/-- The packing expression of register 241 in `setups`. -/
def pack_PDRIFT_SSYNC (ssync pdrift : Nat) : Nat :=
  (ssync <<< 3) ||| pdrift

/-- The packing expression of register 243 in `setups`. -/
def pack_LSLmsb_KGTT (kgtt lslmsb : Nat) : Nat :=
  (kgtt <<< 4) ||| lslmsb

/-- The packing expression of register 244 in `setups`. -/
def pack_DWELL_RIB_THRM_FHM (fhm thrm rib dwell : Nat) : Nat :=
  (fhm <<< 6) ||| (thrm <<< 4) ||| (rib <<< 3) ||| dwell

/-- The packing expression of register 248 in `setups`. -/
def pack_NSTHR_NIL (nil_ nsthr : Nat) : Nat :=
  (nil_ <<< 4) ||| nsthr

/-- The function `bool QT1244::setups(void)`. -/
def setups (q : QT1244) (log : List Effect) : Bool × List Effect :=
  let log := qt1244Write q.DEVADDR COMMAND_ADDR SETUPS_WRITE_ENABLE log
  let log := qt1244Write q.DEVADDR NTHR_PTHR_NDRIFT_BL_ADDR
    (pack_NTHR_PTHR_NDRIFT_BL BL_VALUE NDRIFT_VALUE NTHR_PTHR_VALUE) log
  let log := qt1244Write q.DEVADDR NDIL_FDIL_AKS_WAKE_ADDR
    (pack_NDIL_FDIL_AKS_WAKE WAKE_VALUE AKS_VALUE FDIL_VALUE NDIL_VALUE) log
  let log := qt1244Write q.DEVADDR CFO_1_ADDR CFO_1_VALUE log
  let log := qt1244Write q.DEVADDR CFO_2_ADDR CFO_2_VALUE log
  let log := qt1244Write q.DEVADDR NRD_ADDR NRD_VALUE log
  let log := qt1244Write q.DEVADDR SLEEP_MSYNC_NHYST_DEBUG_ADDR
    (pack_SLEEP_MSYNC_NHYST_DEBUG DEBUG_VALUE NHYST_VALUE MSYNC_VALUE SLEEP_VALUE) log
  let log := qt1244Write q.DEVADDR AWAKE_ADDR AWAKE_VALUE log
  let log := qt1244Write q.DEVADDR DHT_ADDR DHT_VALUE log
  let log := qt1244Write q.DEVADDR PDRIFT_SSYNC_ADDR
    (pack_PDRIFT_SSYNC SSYNC_VALUE PDRIFT_VALUE) log
  let log := qt1244Write q.DEVADDR LSLlsb_ADDR LSLlsb_VALUE log
  let log := qt1244Write q.DEVADDR LSLmsb_KGTT_ADDR
    (pack_LSLmsb_KGTT KGTT_VALUE LSLmsb_VALUE) log
  let log := qt1244Write q.DEVADDR DWELL_RIB_THRM_FHM_ADDR
    (pack_DWELL_RIB_THRM_FHM FHM_VALUE THRM_VALUE RIB_VALUE DWELL_VALUE) log
  let log := qt1244Write q.DEVADDR FREQ0_ADDR FREQ0_VALUE log
  let log := qt1244Write q.DEVADDR FREQ1_ADDR FREQ1_VALUE log
  let log := qt1244Write q.DEVADDR FREQ2_ADDR FREQ2_VALUE log
  let log := qt1244Write q.DEVADDR NSTHR_NIL_ADDR
    (pack_NSTHR_NIL NIL_VALUE NSTHR_VALUE) log
  (true, log)

/-- The function `void QT1244::hardwareReset(GPIO_TypeDef* GPIOx, uint16_t GPIO_Pin)`. -/
def hardwareReset (GPIOx GPIO_Pin : Nat) (log : List Effect) : List Effect :=
  let log := log ++ [Effect.gpioWrite GPIOx GPIO_Pin GPIO_PIN_RESET]
  let log := log ++ [Effect.delayUs 10]
  log ++ [Effect.gpioWrite GPIOx GPIO_Pin GPIO_PIN_SET]

/-- The function `void QT1244::softwareReset(void)`. -/
def softwareReset (q : QT1244) (log : List Effect) : List Effect :=
  let log := qt1244Write q.DEVADDR COMMAND_ADDR FORCE_RESET log
  log ++ [Effect.delayUs 10]

/-- The function `uint8_t QT1244::changeStatus(GPIO_TypeDef* GPIOx, uint16_t GPIO_Pin)`. -/
def changeStatus (hw : Hardware) (GPIOx GPIO_Pin : Nat) (log : List Effect) :
    Nat × List Effect :=
  (hw.pinLevel log.length GPIOx GPIO_Pin % 256, log ++ [Effect.gpioRead GPIOx GPIO_Pin])

/-- The function `bool QT1244::calibrateKeyAll(void)`. -/
def calibrateKeyAll (q : QT1244) (log : List Effect) : Bool × List Effect :=
  let log := qt1244Write q.DEVADDR COMMAND_ADDR CALIBRATE_KEY_ALL log
  (true, log)

/-- The function `bool QT1244::calibrateKey(uint8_t key)`: the chain of 24
comparisons, the empty final `else`, and the unconditional `return true`. -/
def calibrateKey (q : QT1244) (key : Nat) (log : List Effect) : Bool × List Effect :=
  let log :=
    if key = 0 then qt1244Write q.DEVADDR COMMAND_ADDR CALIBRATE_KEY_0 log
    else if key = 1 then qt1244Write q.DEVADDR COMMAND_ADDR CALIBRATE_KEY_1 log
    else if key = 2 then qt1244Write q.DEVADDR COMMAND_ADDR CALIBRATE_KEY_2 log
    else if key = 3 then qt1244Write q.DEVADDR COMMAND_ADDR CALIBRATE_KEY_3 log
    else if key = 4 then qt1244Write q.DEVADDR COMMAND_ADDR CALIBRATE_KEY_4 log
    else if key = 5 then qt1244Write q.DEVADDR COMMAND_ADDR CALIBRATE_KEY_5 log
    else if key = 6 then qt1244Write q.DEVADDR COMMAND_ADDR CALIBRATE_KEY_6 log
    else if key = 7 then qt1244Write q.DEVADDR COMMAND_ADDR CALIBRATE_KEY_7 log
    else if key = 8 then qt1244Write q.DEVADDR COMMAND_ADDR CALIBRATE_KEY_8 log
    else if key = 9 then qt1244Write q.DEVADDR COMMAND_ADDR CALIBRATE_KEY_9 log
    else if key = 10 then qt1244Write q.DEVADDR COMMAND_ADDR CALIBRATE_KEY_10 log
    else if key = 11 then qt1244Write q.DEVADDR COMMAND_ADDR CALIBRATE_KEY_11 log
    else if key = 12 then qt1244Write q.DEVADDR COMMAND_ADDR CALIBRATE_KEY_12 log
    else if key = 13 then qt1244Write q.DEVADDR COMMAND_ADDR CALIBRATE_KEY_13 log
    else if key = 14 then qt1244Write q.DEVADDR COMMAND_ADDR CALIBRATE_KEY_14 log
    else if key = 15 then qt1244Write q.DEVADDR COMMAND_ADDR CALIBRATE_KEY_15 log
    else if key = 16 then qt1244Write q.DEVADDR COMMAND_ADDR CALIBRATE_KEY_16 log
    else if key = 17 then qt1244Write q.DEVADDR COMMAND_ADDR CALIBRATE_KEY_17 log
    else if key = 18 then qt1244Write q.DEVADDR COMMAND_ADDR CALIBRATE_KEY_18 log
    else if key = 19 then qt1244Write q.DEVADDR COMMAND_ADDR CALIBRATE_KEY_19 log
    else if key = 20 then qt1244Write q.DEVADDR COMMAND_ADDR CALIBRATE_KEY_20 log
    else if key = 21 then qt1244Write q.DEVADDR COMMAND_ADDR CALIBRATE_KEY_21 log
    else if key = 22 then qt1244Write q.DEVADDR COMMAND_ADDR CALIBRATE_KEY_22 log
    else if key = 23 then qt1244Write q.DEVADDR COMMAND_ADDR CALIBRATE_KEY_23 log
    else log
  (true, log)

/-- One of the three loops of `scanKey`,
`for (uint8_t i = lo; i <= hi; i++) { if (key == keyMask) return key = i + 1; else keyMask <<= 1; }`,
with `n` iterations left (8 on entry), the current `i` and the current
`uint8_t keyMask`. `some r` is the `return` of `r` from inside the loop,
`none` is the loop running to its end. -/
def scanLoop (key : Nat) : Nat → Nat → Nat → Option Nat
  | 0, _, _ => none
  | n + 1, i, keyMask =>
    if key = keyMask then some ((i + 1) % 256)
    else scanLoop key n (i + 1) ((keyMask <<< 1) % 256)

/-- The function `uint8_t QT1244::scanKey(void)`. -/
def scanKey (hw : Hardware) (q : QT1244) (log : List Effect) : Nat × List Effect :=
  let rd := qt1244Read hw q.DEVADDR KEY_0TO7_ADDR log
  match scanLoop rd.1 8 0 0x01 with
  | some r => (r, rd.2)
  | none =>
    let rd := qt1244Read hw q.DEVADDR KEY_8TO15_ADDR rd.2
    match scanLoop rd.1 8 8 0x01 with
    | some r => (r, rd.2)
    | none =>
      let rd := qt1244Read hw q.DEVADDR KEY_16TO23_ADDR rd.2
      match scanLoop rd.1 8 16 0x01 with
      | some r => (r, rd.2)
      | none => (0, rd.2)

/-- The function `bool QT1244::HCRCStatus(void)`. -/
def HCRCStatus (hw : Hardware) (q : QT1244) (log : List Effect) : Bool × List Effect :=
  let rd := qt1244Read hw q.DEVADDR STATUS_ADDR log
  let x := rd.1 &&& 0x01
  if x = 0x01 then (true, rd.2) else (false, rd.2)

/-- The function `bool QT1244::mainSyncErrorStatus(void)`. -/
def mainSyncErrorStatus (hw : Hardware) (q : QT1244) (log : List Effect) :
    Bool × List Effect :=
  let rd := qt1244Read hw q.DEVADDR STATUS_ADDR log
  let x := rd.1 &&& 0x02
  if x = 0x02 then (true, rd.2) else (false, rd.2)

/-- The function `bool QT1244::keyCalibrationStatus(void)`. -/
def keyCalibrationStatus (hw : Hardware) (q : QT1244) (log : List Effect) :
    Bool × List Effect :=
  let rd := qt1244Read hw q.DEVADDR STATUS_ADDR log
  let x := rd.1 &&& 0x04
  if x = 0x04 then (true, rd.2) else (false, rd.2)

/-- The function `bool QT1244::LSLStatus(void)`. -/
def LSLStatus (hw : Hardware) (q : QT1244) (log : List Effect) : Bool × List Effect :=
  let rd := qt1244Read hw q.DEVADDR STATUS_ADDR log
  let x := rd.1 &&& 0x08
  if x = 0x08 then (true, rd.2) else (false, rd.2)

/-- The function `bool QT1244::FMEAStatus(void)`. -/
def FMEAStatus (hw : Hardware) (q : QT1244) (log : List Effect) : Bool × List Effect :=
  let rd := qt1244Read hw q.DEVADDR STATUS_ADDR log
  let x := rd.1 &&& 0x10
  if x = 0x10 then (true, rd.2) else (false, rd.2)

/-- The three key-detect registers of the device at bus address `dev` hold the
bytes `b0`, `b1`, `b2` whenever they are read. -/
def KeyBytes (hw : Hardware) (dev b0 b1 b2 : Nat) : Prop :=
  ∀ n, hw.busReply n dev KEY_0TO7_ADDR = b0 ∧ hw.busReply n dev KEY_8TO15_ADDR = b1 ∧
    hw.busReply n dev KEY_16TO23_ADDR = b2

/-- The 24-bit detection mask `b0 | b1 << 8 | b2 << 16` of three detect bytes. -/
def keyMask24 (b0 b1 b2 : Nat) : Nat :=
  b0 ||| (b1 <<< 8) ||| (b2 <<< 16)

/-- The register addresses of the bus writes in a log, in the order issued. -/
def writtenRegs : List Effect → List Nat
  | [] => []
  | Effect.busWrite _ reg _ :: es => reg :: writtenRegs es
  | _ :: es => writtenRegs es

/-- A device whose three key-detect registers hold `b0`, `b1`, `b2` at all
times and whose other registers read 0. -/
def keyDevice (b0 b1 b2 : Nat) : Hardware where
  busReply := fun _ _ reg =>
    if reg = KEY_0TO7_ADDR then b0
    else if reg = KEY_8TO15_ADDR then b1
    else if reg = KEY_16TO23_ADDR then b2
    else 0
  pinLevel := fun _ _ _ => 0

/-- A device every register of which reads `s` at all times. -/
def constDevice (s : Nat) : Hardware where
  busReply := fun _ _ _ => s
  pinLevel := fun _ _ _ => 0

/-- The function `void QT1244::debug(uint8_t no)`: the whole body of
`if (no == 0)` is commented out, so neither branch does anything. -/
def debug (no : Nat) (log : List Effect) : List Effect :=
  if no = 0 then log else log

/-- The extraction the specification defines for a field of a packed register
byte: `(registerByte >> offset) & ((1 << width) - 1)`. -/
def unpackField (registerByte offset width : Nat) : Nat :=
  (registerByte >>> offset) &&& ((1 <<< width) - 1)

/-- The five status accessors called one after the other, each on the log the
previous one left: the way a caller of the class obtains all five flags
(checksum valid, mains-sync error, calibration in progress, signal below the
limit, FMEA failure). -/
def allStatusFlags (hw : Hardware) (q : QT1244) (log : List Effect) :
    (Bool × Bool × Bool × Bool × Bool) × List Effect :=
  let r0 := HCRCStatus hw q log
  let r1 := mainSyncErrorStatus hw q r0.2
  let r2 := keyCalibrationStatus hw q r1.2
  let r3 := LSLStatus hw q r2.2
  let r4 := FMEAStatus hw q r3.2
  ((r0.1, r1.1, r2.1, r3.1, r4.1), r4.2)

/-- The status bytes the device returned for the bus reads of a log that
starts empty: the reply to each `busRead`, in the order issued. -/
def repliesOf (hw : Hardware) (log : List Effect) : List Nat :=
  (List.range log.length).filterMap (fun n =>
    match log.get? n with
    | some (Effect.busRead dev reg) => some (hw.busReply n dev reg % 256)
    | _ => none)

/-- The number of bus reads in a log. -/
def busReads : List Effect → Nat
  | [] => 0
  | Effect.busRead _ _ :: es => busReads es + 1
  | _ :: es => busReads es

/-- A device whose status register reads `0b00000001` on the first bus read
and `0b00000010` on every later one. -/
def changingDevice : Hardware where
  busReply := fun n _ _ => if n = 0 then 0x01 else 0x02
  pinLevel := fun _ _ _ => 0

/-- Modelled from the spec: the `Result` of the collaborator `busWrite`, which
the code never looks at (`qt1244Write` is called as a statement).
`writeFails n` tells whether the bus write issued as effect number `n` fails;
the function lists the positions in the log of the writes that failed. -/
def failedWrites (writeFails : Nat → Bool) (log : List Effect) : List Nat :=
  (List.range log.length).filter (fun n =>
    match log.get? n with
    | some (Effect.busWrite _ _ _) => writeFails n
    | _ => false)

/-- The member functions of `QT1244` other than the constructor and `begin`,
with their arguments. -/
inductive Operation where
  | setups
  | hardwareReset (GPIOx GPIO_Pin : Nat)
  | softwareReset
  | changeStatus (GPIOx GPIO_Pin : Nat)
  | calibrateKeyAll
  | calibrateKey (key : Nat)
  | scanKey
  | debug (no : Nat)
  | HCRCStatus
  | mainSyncErrorStatus
  | keyCalibrationStatus
  | LSLStatus
  | FMEAStatus
  deriving DecidableEq, Repr

/-- One call of a member function on the controller `q`: the controller after
the call and the log after the call. None of these member functions assigns
`DEVADDR`, so the controller comes back as it went in. -/
def call (hw : Hardware) (q : QT1244) (log : List Effect) : Operation → QT1244 × List Effect
  | Operation.setups => (q, (setups q log).2)
  | Operation.hardwareReset GPIOx GPIO_Pin => (q, hardwareReset GPIOx GPIO_Pin log)
  | Operation.softwareReset => (q, softwareReset q log)
  | Operation.changeStatus GPIOx GPIO_Pin => (q, (changeStatus hw GPIOx GPIO_Pin log).2)
  | Operation.calibrateKeyAll => (q, (calibrateKeyAll q log).2)
  | Operation.calibrateKey key => (q, (calibrateKey q key log).2)
  | Operation.scanKey => (q, (scanKey hw q log).2)
  | Operation.debug no => (q, debug no log)
  | Operation.HCRCStatus => (q, (HCRCStatus hw q log).2)
  | Operation.mainSyncErrorStatus => (q, (mainSyncErrorStatus hw q log).2)
  | Operation.keyCalibrationStatus => (q, (keyCalibrationStatus hw q log).2)
  | Operation.LSLStatus => (q, (LSLStatus hw q log).2)
  | Operation.FMEAStatus => (q, (FMEAStatus hw q log).2)

/-- A bus read or bus write is addressed to the device address `d`; the other
effects are not bus transactions and satisfy this trivially. -/
def addressedTo (d : Nat) : Effect → Prop
  | Effect.busWrite dev _ _ => dev = d
  | Effect.busRead dev _ => dev = d
  | _ => True

/-- The 16-bit update the specification describes as `crc16Update`: XOR the
byte into the high 8 bits of a 16-bit accumulator, then 8 rounds of "if bit 15
is set then shift left by 1, truncate to 16 bits and XOR `0x1021`, else shift
left by 1 and truncate". -/
def step16 (crc data : Nat) : Nat :=
  refCrcUpdate 0x1021 crc data

/-! ## Lemmas on `scanKey` -/

theorem scanLoop_zero : scanLoop 0 8 0 1 = none ∧ scanLoop 0 8 8 1 = none ∧
    scanLoop 0 8 16 1 = none := by decide

theorem scanLoop_two_pow (i : Nat) (hi : i < 8) :
    scanLoop (2 ^ i) 8 0 1 = some (i + 1) ∧ scanLoop (2 ^ i) 8 8 1 = some (8 + i + 1) ∧
      scanLoop (2 ^ i) 8 16 1 = some (16 + i + 1) := by
  interval_cases i <;> decide

theorem scanKey_first (hw : Hardware) (q : QT1244) (log : List Effect) (b0 b1 b2 r : Nat)
    (h : KeyBytes hw q.DEVADDR b0 b1 b2) (h0 : scanLoop (b0 % 256) 8 0 1 = some r) :
    (scanKey hw q log).1 = r := by
  simp [scanKey, qt1244Read, (h _).1, h0]

theorem scanKey_second (hw : Hardware) (q : QT1244) (log : List Effect) (b0 b1 b2 r : Nat)
    (h : KeyBytes hw q.DEVADDR b0 b1 b2) (h0 : scanLoop (b0 % 256) 8 0 1 = none)
    (h1 : scanLoop (b1 % 256) 8 8 1 = some r) :
    (scanKey hw q log).1 = r := by
  simp [scanKey, qt1244Read, (h _).1, (h _).2.1, h0, h1]

theorem scanKey_third (hw : Hardware) (q : QT1244) (log : List Effect) (b0 b1 b2 r : Nat)
    (h : KeyBytes hw q.DEVADDR b0 b1 b2) (h0 : scanLoop (b0 % 256) 8 0 1 = none)
    (h1 : scanLoop (b1 % 256) 8 8 1 = none) (h2 : scanLoop (b2 % 256) 8 16 1 = some r) :
    (scanKey hw q log).1 = r := by
  simp [scanKey, qt1244Read, (h _).1, (h _).2.1, (h _).2.2, h0, h1, h2]

theorem scanKey_none (hw : Hardware) (q : QT1244) (log : List Effect) (b0 b1 b2 : Nat)
    (h : KeyBytes hw q.DEVADDR b0 b1 b2) (h0 : scanLoop (b0 % 256) 8 0 1 = none)
    (h1 : scanLoop (b1 % 256) 8 8 1 = none) (h2 : scanLoop (b2 % 256) 8 16 1 = none) :
    (scanKey hw q log).1 = 0 := by
  simp [scanKey, qt1244Read, (h _).1, (h _).2.1, (h _).2.2, h0, h1, h2]

theorem keyBytes_keyDevice (dev b0 b1 b2 : Nat) : KeyBytes (keyDevice b0 b1 b2) dev b0 b1 b2 := by
  intro n
  simp [keyDevice, KEY_0TO7_ADDR, KEY_8TO15_ADDR, KEY_16TO23_ADDR]

theorem keyMask24_testBit (b0 b1 b2 j : Nat) :
    (keyMask24 b0 b1 b2).testBit j =
      (b0.testBit j || (decide (8 ≤ j) && b1.testBit (j - 8)) ||
        (decide (16 ≤ j) && b2.testBit (j - 16))) := by
  simp [keyMask24, Nat.testBit_or, Nat.testBit_shiftLeft]

theorem scanKey_two_pow (hw : Hardware) (q : QT1244) (log : List Effect) (k : Nat) (hk : k ≤ 23)
    (h : KeyBytes hw q.DEVADDR (2 ^ k % 256) (2 ^ k / 256 % 256) (2 ^ k / 65536 % 256)) :
    (scanKey hw q log).1 = k + 1 := by
  interval_cases k <;>
    first
    | exact scanKey_first hw q log _ _ _ _ h (by decide)
    | exact scanKey_second hw q log _ _ _ _ h (by decide) (by decide)
    | exact scanKey_third hw q log _ _ _ _ h (by decide) (by decide) (by decide)

theorem keyMask24_eq_add (b0 b1 b2 : Nat) (h0 : b0 < 256) (h1 : b1 < 256) :
    keyMask24 b0 b1 b2 = b0 + 256 * b1 + 65536 * b2 := by
  have e1 : b0 ||| b1 <<< 8 = 2 ^ 8 * b1 + b0 := by
    rw [Nat.or_comm, Nat.shiftLeft_eq, Nat.mul_comm b1]
    exact (Nat.mul_add_lt_is_or (by simpa using h0) b1).symm
  have e2 : 2 ^ 8 * b1 + b0 < 2 ^ 16 := by omega
  unfold keyMask24
  rw [e1, Nat.or_comm, Nat.shiftLeft_eq, Nat.mul_comm b2, ← Nat.mul_add_lt_is_or e2 b2]
  omega

theorem and_two_pow_eq_iff (x k : Nat) : x &&& 2 ^ k = 2 ^ k ↔ x.testBit k = true := by
  constructor
  · intro h
    have := congrArg (fun n => Nat.testBit n k) h
    simpa [Nat.testBit_two_pow_self] using this
  · intro h
    apply Nat.eq_of_testBit_eq
    intro j
    by_cases hj : k = j
    · subst hj
      simp [h]
    · simp [Nat.testBit_two_pow, hj]

theorem setups_log (q : QT1244) (log : List Effect) :
    (setups q log).2 = log ++ Effect.busWrite q.DEVADDR COMMAND_ADDR SETUPS_WRITE_ENABLE ::
      [Effect.busWrite q.DEVADDR 141 0x23, Effect.busWrite q.DEVADDR 165 0xDA,
        Effect.busWrite q.DEVADDR 189 0, Effect.busWrite q.DEVADDR 213 0,
        Effect.busWrite q.DEVADDR 237 20, Effect.busWrite q.DEVADDR 238 0x10,
        Effect.busWrite q.DEVADDR 239 25, Effect.busWrite q.DEVADDR 240 0,
        Effect.busWrite q.DEVADDR 241 0x04, Effect.busWrite q.DEVADDR 242 100,
        Effect.busWrite q.DEVADDR 243 0x60, Effect.busWrite q.DEVADDR 244 0xC0,
        Effect.busWrite q.DEVADDR 245 1, Effect.busWrite q.DEVADDR 246 6,
        Effect.busWrite q.DEVADDR 247 63, Effect.busWrite q.DEVADDR 248 0x32] := by
  simp [setups, qt1244Write, COMMAND_ADDR, SETUPS_WRITE_ENABLE, NTHR_PTHR_NDRIFT_BL_ADDR,
    NDIL_FDIL_AKS_WAKE_ADDR, CFO_1_ADDR, CFO_2_ADDR, NRD_ADDR, SLEEP_MSYNC_NHYST_DEBUG_ADDR,
    AWAKE_ADDR, DHT_ADDR, PDRIFT_SSYNC_ADDR, LSLlsb_ADDR, LSLmsb_KGTT_ADDR,
    DWELL_RIB_THRM_FHM_ADDR, FREQ0_ADDR, FREQ1_ADDR, FREQ2_ADDR, NSTHR_NIL_ADDR,
    pack_NTHR_PTHR_NDRIFT_BL, pack_NDIL_FDIL_AKS_WAKE, pack_SLEEP_MSYNC_NHYST_DEBUG,
    pack_PDRIFT_SSYNC, pack_LSLmsb_KGTT, pack_DWELL_RIB_THRM_FHM, pack_NSTHR_NIL,
    BL_VALUE, NDRIFT_VALUE, NTHR_PTHR_VALUE, WAKE_VALUE, AKS_VALUE, FDIL_VALUE, NDIL_VALUE,
    CFO_1_VALUE, CFO_2_VALUE, NRD_VALUE, DEBUG_VALUE, NHYST_VALUE, MSYNC_VALUE, SLEEP_VALUE,
    AWAKE_VALUE, DHT_VALUE, SSYNC_VALUE, PDRIFT_VALUE, LSLlsb_VALUE, KGTT_VALUE, LSLmsb_VALUE,
    FHM_VALUE, THRM_VALUE, RIB_VALUE, DWELL_VALUE, FREQ0_VALUE, FREQ1_VALUE, FREQ2_VALUE,
    NIL_VALUE, NSTHR_VALUE]

theorem waitReady_ready (hi2c : I2C_HandleTypeDef) (fuel : Nat)
    (h : hi2c.State = HAL_I2C_STATE_READY) : waitReady hi2c (fuel + 1) = some () := by
  simp [waitReady, h]

/-! ## The claims -/

/-- C1: the checksum `CRC16BitCalc` computes is not the CRC-16 of the polynomial
`x^16 + x^15 + x^2 + 1` its doc comment names. On the one-byte block `[0x01]`
the fold from 0 gives `0x11021` with a 32-bit `unsigned long` (low 16 bits
`0x1021`, whatever the width), while the reference CRC for `0x8005` gives
`0x8005`. -/
theorem CRC16BitCalc_polynomial_divergence :
    crcFold 32 0 [0x01] = 0x11021 ∧ crcFold 32 0 [0x01] % 2 ^ 16 = 0x1021 ∧
      crcFold 16 0 [0x01] = 0x1021 ∧ crcFold 64 0 [0x01] % 2 ^ 16 = 0x1021 ∧
      refCrc16_8005 [0x01] = 0x8005 ∧
      crcFold 32 0 [0x01] % 2 ^ 16 ≠ refCrc16_8005 [0x01] := by
  decide

/-- C2, as stated, fails: with detect bytes `(0b00000101, 0, 0)` (keys 0 and 2
set) `scanKey` returns 0, the value it returns when no key is set at all, and
with `(0b00000110, 0, 0)` (keys 1 and 2 set) it returns 0 as well, which is
neither the index of the lowest set key nor that index plus one. -/
theorem scanKey_several_bits_counterexample :
    (scanKey (keyDevice 0b00000101 0 0) ⟨114⟩ []).1 = 0 ∧
      (scanKey (keyDevice 0 0 0) ⟨114⟩ []).1 = 0 ∧
      (keyMask24 0b00000101 0 0).testBit 0 = true ∧
      (scanKey (keyDevice 0b00000110 0 0) ⟨114⟩ []).1 = 0 ∧
      (keyMask24 0b00000110 0 0).testBit 1 = true := by
  decide

/-- C2 (amended): when the first non-zero detect byte, taking registers 6, 7, 8
in this order, has exactly one bit set, `scanKey` reports a detection of the
lowest-indexed set key: it returns `k + 1`, never 0, where `k ≤ 23` is the
position of the least-significant set bit of the 24-bit mask
`b0 | b1 << 8 | b2 << 16`. -/
theorem scanKey_lowest_set_key (hw : Hardware) (q : QT1244) (log : List Effect)
    (b0 b1 b2 i : Nat) (h : KeyBytes hw q.DEVADDR b0 b1 b2) (hi : i < 8)
    (hfirst : b0 = 2 ^ i ∨ (b0 = 0 ∧ b1 = 2 ^ i) ∨ (b0 = 0 ∧ b1 = 0 ∧ b2 = 2 ^ i)) :
    ∃ k, (scanKey hw q log).1 = k + 1 ∧ k ≤ 23 ∧ (keyMask24 b0 b1 b2).testBit k = true ∧
      ∀ j, j < k → (keyMask24 b0 b1 b2).testBit j = false := by
  have hmod : 2 ^ i % 256 = 2 ^ i := Nat.mod_eq_of_lt (by
    calc 2 ^ i < 2 ^ 8 := Nat.pow_lt_pow_right (by norm_num) hi
      _ = 256 := by norm_num)
  have hz := scanLoop_zero
  have hp := scanLoop_two_pow i hi
  rcases hfirst with h0 | ⟨h0, h1⟩ | ⟨h0, h1, h2⟩
  · subst h0
    refine ⟨i, scanKey_first hw q log _ b1 b2 _ h (by rw [hmod]; exact hp.1), by omega, ?_, ?_⟩
    · simp [keyMask24_testBit, Nat.testBit_two_pow_self]
    · intro j hj
      have h8 : ¬ 8 ≤ j := by omega
      have h16 : ¬ 16 ≤ j := by omega
      have hne : i ≠ j := by omega
      simp [keyMask24_testBit, Nat.testBit_two_pow, h8, h16, hne]
  · subst h0 h1
    refine ⟨8 + i, scanKey_second hw q log 0 _ b2 _ h hz.1 (by rw [hmod]; exact hp.2.1),
      by omega, ?_, ?_⟩
    · simp [keyMask24_testBit, Nat.testBit_two_pow_self]
    · intro j hj
      have h16 : ¬ 16 ≤ j := by omega
      rcases Nat.lt_or_ge j 8 with h8 | h8
      · have h8n : ¬ 8 ≤ j := by omega
        simp [keyMask24_testBit, h16, h8n]
      · have hne : i ≠ j - 8 := by omega
        simp [keyMask24_testBit, Nat.testBit_two_pow, h16, hne]
  · subst h0 h1 h2
    refine ⟨16 + i, scanKey_third hw q log 0 0 _ _ h hz.1 hz.2.1 (by rw [hmod]; exact hp.2.2),
      by omega, ?_, ?_⟩
    · simp [keyMask24_testBit, Nat.testBit_two_pow_self]
    · intro j hj
      rcases Nat.lt_or_ge j 16 with h16 | h16
      · have h16n : ¬ 16 ≤ j := by omega
        simp [keyMask24_testBit, h16n]
      · have hne : i ≠ j - 16 := by omega
        simp [keyMask24_testBit, Nat.testBit_two_pow, hne]

/-- Witness of C2 (amended): detect bytes `(0, 0b00000100, 0b11111111)`, first
non-zero byte `b1` with the single bit 2 set; the result is `k + 1` for the
least-significant set bit `k` of the mask. -/
theorem scanKey_lowest_set_key_witness :
    ∃ k, (scanKey (keyDevice 0 4 255) ⟨114⟩ []).1 = k + 1 ∧ k ≤ 23 ∧
      (keyMask24 0 4 255).testBit k = true ∧
      ∀ j, j < k → (keyMask24 0 4 255).testBit j = false :=
  scanKey_lowest_set_key (keyDevice 0 4 255) ⟨114⟩ [] 0 4 255 2
    (keyBytes_keyDevice 114 0 4 255) (by decide) (Or.inr (Or.inl ⟨rfl, by decide⟩))

/-- C3, as stated, fails: with detect bytes `(0b00000100, 0, 0)` (key 2 alone)
`scanKey` returns 3, not 2. -/
theorem scanKey_single_key_counterexample :
    (scanKey (keyDevice 0b00000100 0 0) ⟨114⟩ []).1 = 3 ∧
      (scanKey (keyDevice 0b00000100 0 0) ⟨114⟩ []).1 ≠ 2 := by
  decide

/-- C3 (amended): for every key index `k` in [0, 23], when exactly bit `k` of
the 24-bit mask of the three detect bytes is set, `scanKey` returns `k + 1`, a
value in [1, 24]; when all three bytes are zero it returns 0, which is none of
these values. -/
theorem scanKey_single_key (hw : Hardware) (q : QT1244) (log : List Effect)
    (b0 b1 b2 : Nat) (h : KeyBytes hw q.DEVADDR b0 b1 b2)
    (h0 : b0 < 256) (h1 : b1 < 256) (h2 : b2 < 256) :
    (∀ k, k ≤ 23 → keyMask24 b0 b1 b2 = 2 ^ k →
        (scanKey hw q log).1 = k + 1 ∧ 1 ≤ (scanKey hw q log).1 ∧
          (scanKey hw q log).1 ≤ 24) ∧
      (keyMask24 b0 b1 b2 = 0 → (scanKey hw q log).1 = 0) := by
  rw [keyMask24_eq_add b0 b1 b2 h0 h1]
  constructor
  · intro k hk hm
    have hlt : 2 ^ k < 2 ^ 24 := Nat.pow_lt_pow_right (by norm_num) (by omega)
    have hb : b0 = 2 ^ k % 256 ∧ b1 = 2 ^ k / 256 % 256 ∧ b2 = 2 ^ k / 65536 % 256 := by
      generalize 2 ^ k = m at hm hlt
      omega
    obtain ⟨e0, e1, e2⟩ := hb
    rw [e0, e1, e2] at h
    have hr := scanKey_two_pow hw q log k hk h
    omega
  · intro hm
    have e0 : b0 = 0 := by omega
    have e1 : b1 = 0 := by omega
    have e2 : b2 = 0 := by omega
    subst e0 e1 e2
    exact scanKey_none hw q log 0 0 0 h scanLoop_zero.1 scanLoop_zero.2.1 scanLoop_zero.2.2

/-- Witness of C3 (amended): key 23 alone, detect bytes `(0, 0, 0b10000000)`,
gives 24; all bytes zero give 0. -/
theorem scanKey_single_key_witness :
    (scanKey (keyDevice 0 0 128) ⟨114⟩ []).1 = 24 ∧ (scanKey (keyDevice 0 0 0) ⟨114⟩ []).1 = 0 :=
  ⟨((scanKey_single_key (keyDevice 0 0 128) ⟨114⟩ [] 0 0 128 (keyBytes_keyDevice 114 0 0 128)
      (by decide) (by decide) (by decide)).1 23 (by decide) (by decide)).1,
    (scanKey_single_key (keyDevice 0 0 0) ⟨114⟩ [] 0 0 0 (keyBytes_keyDevice 114 0 0 0)
      (by decide) (by decide) (by decide)).2 (by decide)⟩

/-- C4: for every status byte `s` the read of the status register (address 5)
returns, `HCRCStatus` is true iff bit 0 of `s` is set, `mainSyncErrorStatus`
iff bit 1, `keyCalibrationStatus` iff bit 2, `LSLStatus` iff bit 3 and
`FMEAStatus` iff bit 4; no other bit of `s` has a part in any of the results. -/
theorem status_accessors_decode (hw : Hardware) (q : QT1244) (log : List Effect) (s : Nat)
    (hs : (qt1244Read hw q.DEVADDR STATUS_ADDR log).1 = s) :
    (HCRCStatus hw q log).1 = s.testBit 0 ∧
      (mainSyncErrorStatus hw q log).1 = s.testBit 1 ∧
      (keyCalibrationStatus hw q log).1 = s.testBit 2 ∧
      (LSLStatus hw q log).1 = s.testBit 3 ∧
      (FMEAStatus hw q log).1 = s.testBit 4 := by
  have key : ∀ k : Nat, (if s &&& 2 ^ k = 2 ^ k then true else false) = s.testBit k := by
    intro k
    by_cases hb : s.testBit k = true
    · simp [(and_two_pow_eq_iff s k).2 hb, hb]
    · have hn : ¬ (s &&& 2 ^ k = 2 ^ k) := fun e => hb ((and_two_pow_eq_iff s k).1 e)
      simp only [hn, if_false]
      simpa using hb
  refine ⟨?_, ?_, ?_, ?_, ?_⟩
  · have := key 0
    simp only [HCRCStatus, hs]
    split <;> simp_all
  · have := key 1
    simp only [mainSyncErrorStatus, hs]
    split <;> simp_all
  · have := key 2
    simp only [keyCalibrationStatus, hs]
    split <;> simp_all
  · have := key 3
    simp only [LSLStatus, hs]
    split <;> simp_all
  · have := key 4
    simp only [FMEAStatus, hs]
    split <;> simp_all

/-- Witness of C4: the status byte `0b00010101` decodes to checksum valid,
no mains-sync error, calibration in progress, signal not below the limit,
FMEA failure: true, false, true, false, true. -/
theorem status_accessors_decode_witness :
    (HCRCStatus (constDevice 0b00010101) ⟨114⟩ []).1 = true ∧
      (mainSyncErrorStatus (constDevice 0b00010101) ⟨114⟩ []).1 = false ∧
      (keyCalibrationStatus (constDevice 0b00010101) ⟨114⟩ []).1 = true ∧
      (LSLStatus (constDevice 0b00010101) ⟨114⟩ []).1 = false ∧
      (FMEAStatus (constDevice 0b00010101) ⟨114⟩ []).1 = true :=
  status_accessors_decode (constDevice 0b00010101) ⟨114⟩ [] 0b00010101 (by decide)

/-- C5, as stated, fails: `setups` issues 17 bus writes in all, not 1 + 108, and
none of them goes to address 142, which lies in the configuration range. -/
theorem setups_range_counterexample :
    (writtenRegs (setups ⟨114⟩ []).2).length = 17 ∧ 142 ∉ writtenRegs (setups ⟨114⟩ []).2 ∧
      141 ≤ 142 ∧ 142 ≤ 248 := by
  decide

/-- C5 (amended): after the write-enable command, `setups` writes one byte to
each of the 16 register addresses 141, 165, 189, 213 and 237 through 248 of the
configuration range, each exactly once and in ascending address order, all to
the bound device, and issues nothing else. -/
theorem setups_written_addresses (q : QT1244) (log : List Effect) :
    ∃ tail, (setups q log).2 =
        log ++ Effect.busWrite q.DEVADDR COMMAND_ADDR SETUPS_WRITE_ENABLE :: tail ∧
      (∀ e ∈ tail, ∃ reg val, e = Effect.busWrite q.DEVADDR reg val) ∧
      writtenRegs tail =
        [141, 165, 189, 213, 237, 238, 239, 240, 241, 242, 243, 244, 245, 246, 247, 248] ∧
      tail.length = 16 ∧
      (writtenRegs tail).Pairwise (fun a b => a < b) := by
  refine ⟨_, setups_log q log, ?_, ?_, ?_, ?_⟩
  · intro e he
    simp only [List.mem_cons, List.mem_singleton, List.not_mem_nil, or_false] at he
    rcases he with h | h | h | h | h | h | h | h | h | h | h | h | h | h | h | h <;>
      exact ⟨_, _, h⟩
  · rfl
  · rfl
  · simp [writtenRegs]

/-- C6: the first bus transaction `setups` issues is the write of the
write-enable value `0xFE` to the command register (address 140); `setups`
issues no bus read anywhere in its sequence; and every write after the first
goes to an address in [141, 248]. -/
theorem setups_unlock_first_no_read (q : QT1244) (log : List Effect) :
    ∃ tail, (setups q log).2 = log ++ Effect.busWrite q.DEVADDR 140 0xFE :: tail ∧
      (∀ e ∈ Effect.busWrite q.DEVADDR 140 0xFE :: tail, ∀ dev reg, e ≠ Effect.busRead dev reg) ∧
      (∀ e ∈ tail, ∃ reg val, e = Effect.busWrite q.DEVADDR reg val ∧ 141 ≤ reg ∧ reg ≤ 248) ∧
      (setups q log).1 = true := by
  refine ⟨_, setups_log q log, ?_, ?_, rfl⟩
  · intro e he dev reg
    simp only [List.mem_cons, List.mem_singleton, List.not_mem_nil, or_false] at he
    rcases he with h | h | h | h | h | h | h | h | h | h | h | h | h | h | h | h | h <;>
      simp [h]
  · intro e he
    simp only [List.mem_cons, List.mem_singleton, List.not_mem_nil, or_false] at he
    rcases he with h | h | h | h | h | h | h | h | h | h | h | h | h | h | h | h <;>
      exact ⟨_, _, h, by decide, by decide⟩

/-- C7: for every key index `k` in [0, 23], `calibrateKey(k)` returns true and
issues exactly one bus transaction, the write of the byte `k` itself to the
command register (address 140) of the bound device address. -/
theorem calibrateKey_valid (q : QT1244) (log : List Effect) (k : Nat) (hk : k ≤ 23) :
    calibrateKey q k log = (true, log ++ [Effect.busWrite q.DEVADDR 140 k]) := by
  interval_cases k <;> rfl

/-- Witness of C7: `calibrateKey(23)` on the device bound to address 114 writes
the byte 23 to register 140. -/
theorem calibrateKey_valid_witness :
    calibrateKey ⟨114⟩ 23 [] = (true, [] ++ [Effect.busWrite 114 140 23]) :=
  calibrateKey_valid ⟨114⟩ [] 23 (by decide)

/-- C8: `calibrateKey(24)` does not fail: the final `else` of the chain is
empty, so the call returns true, like a successful calibration, and issues no
bus transaction. The same holds for 255. -/
theorem calibrateKey_24_returns_true (q : QT1244) (log : List Effect) :
    calibrateKey q 24 log = (true, log) ∧ calibrateKey q 255 log = (true, log) :=
  ⟨rfl, rfl⟩

/-- C9: for each of the four legal selector values 57, 7, 17 and 117, and only
for these, `begin` stores a device address, namely the selector shifted left by
one bit (114, 14, 34, 234), and returns true once the transport is ready. The
shifted value fits in 8 bits without truncation, has bit 0 clear, its upper 7
bits are the datasheet address, and the four stored addresses are pairwise
distinct. For any other selector the stored address is left as it was. -/
theorem begin_address_resolution (hi2c : I2C_HandleTypeDef) (fuel : Nat) (q : QT1244)
    (log : List Effect) (hready : hi2c.State = HAL_I2C_STATE_READY) :
    (∀ d, d ∈ [57, 7, 17, 117] →
        begin hi2c (fuel + 1) q d log = some (true, ⟨d <<< 1⟩, log ++ [Effect.i2cInit]) ∧
          d <<< 1 < 256 ∧ (d <<< 1).testBit 0 = false ∧ (d <<< 1) >>> 1 = d) ∧
      (∀ d, d ∉ [57, 7, 17, 117] →
        Option.map (fun r => r.2.1) (begin hi2c (fuel + 1) q d log) = some q) ∧
      [57 <<< 1, 7 <<< 1, 17 <<< 1, 117 <<< 1] = [114, 14, 34, 234] ∧
      [57 <<< 1, 7 <<< 1, 17 <<< 1, 117 <<< 1].Nodup := by
  refine ⟨?_, ?_, by decide, by decide⟩
  · intro d hd
    simp only [List.mem_cons, List.mem_singleton, List.not_mem_nil, or_false] at hd
    rcases hd with rfl | rfl | rfl | rfl <;>
      exact ⟨by simp [begin, waitReady_ready hi2c fuel hready, QT1244_ADDR_1, QT1244_ADDR_2,
        QT1244_ADDR_3, QT1244_ADDR_4], by decide, by decide, by decide⟩
  · intro d hd
    simp only [List.mem_cons, List.mem_singleton, List.not_mem_nil, or_false, not_or] at hd
    obtain ⟨h1, h2, h3, h4⟩ := hd
    simp [begin, waitReady_ready hi2c fuel hready, h1, h2, h3, h4]

/-- Witness of C9: with a ready transport, `begin(57)` returns true and stores
114, and `begin(5)` leaves the stored address as it was. -/
theorem begin_address_resolution_witness :
    begin ⟨HAL_I2C_STATE_READY⟩ 1 ⟨0⟩ 57 [] = some (true, ⟨114⟩, [Effect.i2cInit]) ∧
      Option.map (fun r => r.2.1) (begin ⟨HAL_I2C_STATE_READY⟩ 1 ⟨0⟩ 5 []) = some ⟨0⟩ :=
  ⟨((begin_address_resolution ⟨HAL_I2C_STATE_READY⟩ 0 ⟨0⟩ [] rfl).1 57 (by decide)).1,
    (begin_address_resolution ⟨HAL_I2C_STATE_READY⟩ 0 ⟨0⟩ [] rfl).2.1 5 (by decide)⟩

/-- C10: `begin` does not fail for a selector outside the four legal values: the
final `else` is empty, so with a ready transport `begin(5)` returns true, like
a successful initialisation, with the stored address left as it was. The same
holds for 0 and for 58. -/
theorem begin_illegal_selector_returns_true :
    begin ⟨HAL_I2C_STATE_READY⟩ 1 ⟨0⟩ 5 [] = some (true, ⟨0⟩, [Effect.i2cInit]) ∧
      begin ⟨HAL_I2C_STATE_READY⟩ 1 ⟨0⟩ 0 [] = some (true, ⟨0⟩, [Effect.i2cInit]) ∧
      begin ⟨HAL_I2C_STATE_READY⟩ 1 ⟨0⟩ 58 [] = some (true, ⟨0⟩, [Effect.i2cInit]) := by
  decide

/-! ## Lemmas for the packing, status, scan and wait claims -/

theorem ite_and_two_pow (s k : Nat) (l : List Effect) :
    (if s &&& 2 ^ k = 2 ^ k then (true, l) else (false, l)) = (s.testBit k, l) := by
  by_cases hb : s.testBit k = true
  · rw [if_pos ((and_two_pow_eq_iff s k).2 hb), hb]
  · rw [if_neg (fun e => hb ((and_two_pow_eq_iff s k).1 e))]
    simp only [Bool.not_eq_true] at hb
    rw [hb]

theorem HCRCStatus_eq (hw : Hardware) (q : QT1244) (log : List Effect) :
    HCRCStatus hw q log = ((hw.busReply log.length q.DEVADDR STATUS_ADDR % 256).testBit 0,
      log ++ [Effect.busRead q.DEVADDR STATUS_ADDR]) :=
  ite_and_two_pow _ 0 _

theorem mainSyncErrorStatus_eq (hw : Hardware) (q : QT1244) (log : List Effect) :
    mainSyncErrorStatus hw q log =
      ((hw.busReply log.length q.DEVADDR STATUS_ADDR % 256).testBit 1,
        log ++ [Effect.busRead q.DEVADDR STATUS_ADDR]) :=
  ite_and_two_pow _ 1 _

theorem keyCalibrationStatus_eq (hw : Hardware) (q : QT1244) (log : List Effect) :
    keyCalibrationStatus hw q log =
      ((hw.busReply log.length q.DEVADDR STATUS_ADDR % 256).testBit 2,
        log ++ [Effect.busRead q.DEVADDR STATUS_ADDR]) :=
  ite_and_two_pow _ 2 _

theorem LSLStatus_eq (hw : Hardware) (q : QT1244) (log : List Effect) :
    LSLStatus hw q log = ((hw.busReply log.length q.DEVADDR STATUS_ADDR % 256).testBit 3,
      log ++ [Effect.busRead q.DEVADDR STATUS_ADDR]) :=
  ite_and_two_pow _ 3 _

theorem FMEAStatus_eq (hw : Hardware) (q : QT1244) (log : List Effect) :
    FMEAStatus hw q log = ((hw.busReply log.length q.DEVADDR STATUS_ADDR % 256).testBit 4,
      log ++ [Effect.busRead q.DEVADDR STATUS_ADDR]) :=
  ite_and_two_pow _ 4 _

theorem scanLoop_some_range (key : Nat) :
    ∀ (n i m r : Nat), scanLoop key n i m = some r → i + n ≤ 255 → i + 1 ≤ r ∧ r ≤ i + n := by
  intro n
  induction n with
  | zero => intro i m r h; simp [scanLoop] at h
  | succ n ih =>
    intro i m r h hb
    unfold scanLoop at h
    split at h
    · have hr : (i + 1) % 256 = r := by simpa using h
      rw [Nat.mod_eq_of_lt (by omega)] at hr
      omega
    · have := ih (i + 1) _ r h (by omega)
      omega

theorem scanKey_cases (hw : Hardware) (q : QT1244) (log : List Effect) :
    ((scanKey hw q log).2 = log ++ [Effect.busRead q.DEVADDR KEY_0TO7_ADDR] ∧
        1 ≤ (scanKey hw q log).1 ∧ (scanKey hw q log).1 ≤ 8) ∨
      ((scanKey hw q log).2 = log ++ [Effect.busRead q.DEVADDR KEY_0TO7_ADDR,
          Effect.busRead q.DEVADDR KEY_8TO15_ADDR] ∧
        9 ≤ (scanKey hw q log).1 ∧ (scanKey hw q log).1 ≤ 16) ∨
      ((scanKey hw q log).2 = log ++ [Effect.busRead q.DEVADDR KEY_0TO7_ADDR,
          Effect.busRead q.DEVADDR KEY_8TO15_ADDR, Effect.busRead q.DEVADDR KEY_16TO23_ADDR] ∧
        ((scanKey hw q log).1 = 0 ∨
          (17 ≤ (scanKey hw q log).1 ∧ (scanKey hw q log).1 ≤ 24))) := by
  unfold scanKey
  simp only []
  split
  · rename_i r h0
    have := scanLoop_some_range _ _ _ _ _ h0 (by norm_num)
    left
    exact ⟨by simp [qt1244Read], by omega, by omega⟩
  · split
    · rename_i r h1
      have := scanLoop_some_range _ _ _ _ _ h1 (by norm_num)
      right; left
      exact ⟨by simp [qt1244Read], by omega, by omega⟩
    · split
      · rename_i r h2
        have := scanLoop_some_range _ _ _ _ _ h2 (by norm_num)
        right; right
        exact ⟨by simp [qt1244Read], Or.inr ⟨by omega, by omega⟩⟩
      · right; right
        exact ⟨by simp [qt1244Read], Or.inl rfl⟩

theorem calibrateKey_eq (q : QT1244) (key : Nat) (log : List Effect) :
    calibrateKey q key log =
      (true, if key ≤ 23 then log ++ [Effect.busWrite q.DEVADDR COMMAND_ADDR key] else log) := by
  by_cases hk : key ≤ 23
  · rw [if_pos hk]
    interval_cases key <;> rfl
  · rw [if_neg hk]
    unfold calibrateKey
    simp only []
    repeat rw [if_neg (by omega)]

theorem waitReady_not_ready (hi2c : I2C_HandleTypeDef) (h : hi2c.State ≠ HAL_I2C_STATE_READY) :
    ∀ fuel, waitReady hi2c fuel = none := by
  intro fuel
  induction fuel with
  | zero => rfl
  | succ n ih => simp [waitReady, h, ih]

/-! ## The claims, continued -/

/-- C11: for each of the seven multi-field registers `setups` packs (141, 165,
238, 241, 243, 244, 248) and for all field values within their declared bit
widths, the shift-and-OR expression of `setups` gives a value that fits in one
byte, and `(byte >> offset) & ((1 << width) - 1)` returns, for every field of
the register, exactly the value supplied for that field. -/
theorem pack_unpack_roundtrip :
    (∀ bl ndrift nthr_pthr, bl < 4 → ndrift < 8 → nthr_pthr < 8 →
        pack_NTHR_PTHR_NDRIFT_BL bl ndrift nthr_pthr < 256 ∧
        unpackField (pack_NTHR_PTHR_NDRIFT_BL bl ndrift nthr_pthr) 0 3 = nthr_pthr ∧
        unpackField (pack_NTHR_PTHR_NDRIFT_BL bl ndrift nthr_pthr) 3 3 = ndrift ∧
        unpackField (pack_NTHR_PTHR_NDRIFT_BL bl ndrift nthr_pthr) 6 2 = bl) ∧
      (∀ wake aks fdil ndil, wake < 2 → aks < 2 → fdil < 8 → ndil < 8 →
        pack_NDIL_FDIL_AKS_WAKE wake aks fdil ndil < 256 ∧
        unpackField (pack_NDIL_FDIL_AKS_WAKE wake aks fdil ndil) 0 3 = ndil ∧
        unpackField (pack_NDIL_FDIL_AKS_WAKE wake aks fdil ndil) 3 3 = fdil ∧
        unpackField (pack_NDIL_FDIL_AKS_WAKE wake aks fdil ndil) 6 1 = aks ∧
        unpackField (pack_NDIL_FDIL_AKS_WAKE wake aks fdil ndil) 7 1 = wake) ∧
      (∀ dbg nhyst msync sleep, dbg < 4 → nhyst < 4 → msync < 2 → sleep < 8 →
        pack_SLEEP_MSYNC_NHYST_DEBUG dbg nhyst msync sleep < 256 ∧
        unpackField (pack_SLEEP_MSYNC_NHYST_DEBUG dbg nhyst msync sleep) 0 3 = sleep ∧
        unpackField (pack_SLEEP_MSYNC_NHYST_DEBUG dbg nhyst msync sleep) 3 1 = msync ∧
        unpackField (pack_SLEEP_MSYNC_NHYST_DEBUG dbg nhyst msync sleep) 4 2 = nhyst ∧
        unpackField (pack_SLEEP_MSYNC_NHYST_DEBUG dbg nhyst msync sleep) 6 2 = dbg) ∧
      (∀ ssync pdrift, ssync < 32 → pdrift < 8 →
        pack_PDRIFT_SSYNC ssync pdrift < 256 ∧
        unpackField (pack_PDRIFT_SSYNC ssync pdrift) 0 3 = pdrift ∧
        unpackField (pack_PDRIFT_SSYNC ssync pdrift) 3 5 = ssync) ∧
      (∀ kgtt lslmsb, kgtt < 16 → lslmsb < 8 →
        pack_LSLmsb_KGTT kgtt lslmsb < 256 ∧
        unpackField (pack_LSLmsb_KGTT kgtt lslmsb) 0 3 = lslmsb ∧
        unpackField (pack_LSLmsb_KGTT kgtt lslmsb) 4 4 = kgtt) ∧
      (∀ fhm thrm rib dwell, fhm < 4 → thrm < 4 → rib < 2 → dwell < 8 →
        pack_DWELL_RIB_THRM_FHM fhm thrm rib dwell < 256 ∧
        unpackField (pack_DWELL_RIB_THRM_FHM fhm thrm rib dwell) 0 3 = dwell ∧
        unpackField (pack_DWELL_RIB_THRM_FHM fhm thrm rib dwell) 3 1 = rib ∧
        unpackField (pack_DWELL_RIB_THRM_FHM fhm thrm rib dwell) 4 2 = thrm ∧
        unpackField (pack_DWELL_RIB_THRM_FHM fhm thrm rib dwell) 6 2 = fhm) ∧
      (∀ nil_ nsthr, nil_ < 16 → nsthr < 16 →
        pack_NSTHR_NIL nil_ nsthr < 256 ∧
        unpackField (pack_NSTHR_NIL nil_ nsthr) 0 4 = nsthr ∧
        unpackField (pack_NSTHR_NIL nil_ nsthr) 4 4 = nil_) := by
  refine ⟨?_, ?_, ?_, ?_, ?_, ?_, ?_⟩
  · have key : ∀ bl < 4, ∀ ndrift < 8, ∀ nthr_pthr < 8,
        pack_NTHR_PTHR_NDRIFT_BL bl ndrift nthr_pthr < 256 ∧
        unpackField (pack_NTHR_PTHR_NDRIFT_BL bl ndrift nthr_pthr) 0 3 = nthr_pthr ∧
        unpackField (pack_NTHR_PTHR_NDRIFT_BL bl ndrift nthr_pthr) 3 3 = ndrift ∧
        unpackField (pack_NTHR_PTHR_NDRIFT_BL bl ndrift nthr_pthr) 6 2 = bl := by decide
    exact fun a b c ha hb hc => key a ha b hb c hc
  · have key : ∀ wake < 2, ∀ aks < 2, ∀ fdil < 8, ∀ ndil < 8,
        pack_NDIL_FDIL_AKS_WAKE wake aks fdil ndil < 256 ∧
        unpackField (pack_NDIL_FDIL_AKS_WAKE wake aks fdil ndil) 0 3 = ndil ∧
        unpackField (pack_NDIL_FDIL_AKS_WAKE wake aks fdil ndil) 3 3 = fdil ∧
        unpackField (pack_NDIL_FDIL_AKS_WAKE wake aks fdil ndil) 6 1 = aks ∧
        unpackField (pack_NDIL_FDIL_AKS_WAKE wake aks fdil ndil) 7 1 = wake := by
      intro wake hwake aks haks
      interval_cases wake <;> interval_cases aks <;> decide
    exact fun a b c d ha hb hc hd => key a ha b hb c hc d hd
  · have key : ∀ dbg < 4, ∀ nhyst < 4, ∀ msync < 2, ∀ sleep < 8,
        pack_SLEEP_MSYNC_NHYST_DEBUG dbg nhyst msync sleep < 256 ∧
        unpackField (pack_SLEEP_MSYNC_NHYST_DEBUG dbg nhyst msync sleep) 0 3 = sleep ∧
        unpackField (pack_SLEEP_MSYNC_NHYST_DEBUG dbg nhyst msync sleep) 3 1 = msync ∧
        unpackField (pack_SLEEP_MSYNC_NHYST_DEBUG dbg nhyst msync sleep) 4 2 = nhyst ∧
        unpackField (pack_SLEEP_MSYNC_NHYST_DEBUG dbg nhyst msync sleep) 6 2 = dbg := by
      intro dbg hdbg nhyst hnhyst
      interval_cases dbg <;> interval_cases nhyst <;> decide
    exact fun a b c d ha hb hc hd => key a ha b hb c hc d hd
  · have key : ∀ ssync < 32, ∀ pdrift < 8,
        pack_PDRIFT_SSYNC ssync pdrift < 256 ∧
        unpackField (pack_PDRIFT_SSYNC ssync pdrift) 0 3 = pdrift ∧
        unpackField (pack_PDRIFT_SSYNC ssync pdrift) 3 5 = ssync := by decide
    exact fun a b ha hb => key a ha b hb
  · have key : ∀ kgtt < 16, ∀ lslmsb < 8,
        pack_LSLmsb_KGTT kgtt lslmsb < 256 ∧
        unpackField (pack_LSLmsb_KGTT kgtt lslmsb) 0 3 = lslmsb ∧
        unpackField (pack_LSLmsb_KGTT kgtt lslmsb) 4 4 = kgtt := by decide
    exact fun a b ha hb => key a ha b hb
  · have key : ∀ fhm < 4, ∀ thrm < 4, ∀ rib < 2, ∀ dwell < 8,
        pack_DWELL_RIB_THRM_FHM fhm thrm rib dwell < 256 ∧
        unpackField (pack_DWELL_RIB_THRM_FHM fhm thrm rib dwell) 0 3 = dwell ∧
        unpackField (pack_DWELL_RIB_THRM_FHM fhm thrm rib dwell) 3 1 = rib ∧
        unpackField (pack_DWELL_RIB_THRM_FHM fhm thrm rib dwell) 4 2 = thrm ∧
        unpackField (pack_DWELL_RIB_THRM_FHM fhm thrm rib dwell) 6 2 = fhm := by
      intro fhm hfhm thrm hthrm
      interval_cases fhm <;> interval_cases thrm <;> decide
    exact fun a b c d ha hb hc hd => key a ha b hb c hc d hd
  · have key : ∀ nil_ < 16, ∀ nsthr < 16,
        pack_NSTHR_NIL nil_ nsthr < 256 ∧
        unpackField (pack_NSTHR_NIL nil_ nsthr) 0 4 = nsthr ∧
        unpackField (pack_NSTHR_NIL nil_ nsthr) 4 4 = nil_ := by decide
    exact fun a b ha hb => key a ha b hb

/-- Witness of C11: the seven registers at the field values configured in
`qt1244.h`; one field of each register is read back. -/
theorem pack_unpack_roundtrip_witness :
    unpackField (pack_NTHR_PTHR_NDRIFT_BL 0 4 3) 3 3 = 4 ∧
      unpackField (pack_NDIL_FDIL_AKS_WAKE 1 1 3 2) 7 1 = 1 ∧
      unpackField (pack_SLEEP_MSYNC_NHYST_DEBUG 0 1 0 0) 4 2 = 1 ∧
      unpackField (pack_PDRIFT_SSYNC 0 4) 0 3 = 4 ∧
      unpackField (pack_LSLmsb_KGTT 6 0) 4 4 = 6 ∧
      unpackField (pack_DWELL_RIB_THRM_FHM 3 0 0 0) 6 2 = 3 ∧
      pack_NSTHR_NIL 3 2 < 256 :=
  ⟨(pack_unpack_roundtrip.1 0 4 3 (by decide) (by decide) (by decide)).2.2.1,
    (pack_unpack_roundtrip.2.1 1 1 3 2 (by decide) (by decide) (by decide) (by decide)).2.2.2.2,
    (pack_unpack_roundtrip.2.2.1 0 1 0 0 (by decide) (by decide) (by decide)
      (by decide)).2.2.2.1,
    (pack_unpack_roundtrip.2.2.2.1 0 4 (by decide) (by decide)).2.1,
    (pack_unpack_roundtrip.2.2.2.2.1 6 0 (by decide) (by decide)).2.2,
    (pack_unpack_roundtrip.2.2.2.2.2.1 3 0 0 0 (by decide) (by decide) (by decide)
      (by decide)).2.2.2.2,
    (pack_unpack_roundtrip.2.2.2.2.2.2 3 2 (by decide) (by decide)).1⟩

/-- C12: the value `CRC16BitCalc` returns is not a 16-bit quantity. With a
32-bit `unsigned long`, accumulator 0 and data byte `0x80` it returns
`0x889188`, and for accumulator `0x8000` and byte 0 the same, both above
`2^16`; nothing in the function masks the bits shifted out of bit 15. -/
theorem CRC16BitCalc_exceeds_16_bits :
    CRC16BitCalc 32 0 0x80 = 0x889188 ∧ ¬ CRC16BitCalc 32 0 0x80 < 2 ^ 16 ∧
      CRC16BitCalc 32 0x8000 0 = 0x889188 ∧ ¬ CRC16BitCalc 32 0x8000 0 < 2 ^ 16 ∧
      ¬ CRC16BitCalc 64 0 0x80 < 2 ^ 16 := by
  decide

/-- C13: folding `CRC16BitCalc` over the empty byte sequence returns the initial
accumulator value unchanged, and folding it over `[0x00]` from 0 gives 0, that
is `CRC16BitCalc(0, 0) = 0`, for every width of `unsigned long`. -/
theorem crcFold_nil_and_zero_byte (W init : Nat) :
    crcFold W init [] = init ∧ crcFold W 0 [0x00] = 0x0000 ∧ CRC16BitCalc W 0 0 = 0 := by
  have h : CRC16BitCalc W 0 0 = 0 := by
    simp [CRC16BitCalc, crcDoWhile, crcRound]
  exact ⟨rfl, by simpa [crcFold] using h, h⟩

/-- C14, as stated, fails: obtaining the five flags issues five bus reads of
address 5, one per accessor, not one; and on a device whose status byte changes
from `0b01` to `0b10` after the first read the flags come out as checksum valid
and mains-sync error both true, although no status byte read had both bits. -/
theorem status_snapshot_counterexample :
    busReads (allStatusFlags (constDevice 0b00010101) ⟨114⟩ []).2 = 5 ∧
      (allStatusFlags changingDevice ⟨114⟩ []).1 = (true, true, false, false, false) ∧
      repliesOf changingDevice (allStatusFlags changingDevice ⟨114⟩ []).2 = [1, 2, 2, 2, 2] ∧
      (HCRCStatus (constDevice 0) ⟨114⟩ []).2 = [Effect.busRead 114 5] := by
  decide

/-- C14 (amended): every flag accessor issues one bus read of address 5 of its
own and decodes its bit from the byte that read returns; obtaining all five
flags therefore issues exactly five bus reads of address 5, and each flag is
the bit of the status byte returned to its own read. -/
theorem status_accessors_read_each (hw : Hardware) (q : QT1244) (log : List Effect) :
    (HCRCStatus hw q log).2 = log ++ [Effect.busRead q.DEVADDR 5] ∧
      (mainSyncErrorStatus hw q log).2 = log ++ [Effect.busRead q.DEVADDR 5] ∧
      (keyCalibrationStatus hw q log).2 = log ++ [Effect.busRead q.DEVADDR 5] ∧
      (LSLStatus hw q log).2 = log ++ [Effect.busRead q.DEVADDR 5] ∧
      (FMEAStatus hw q log).2 = log ++ [Effect.busRead q.DEVADDR 5] ∧
      (allStatusFlags hw q log).2 = log ++ List.replicate 5 (Effect.busRead q.DEVADDR 5) ∧
      (allStatusFlags hw q log).1 =
        ((hw.busReply log.length q.DEVADDR 5 % 256).testBit 0,
          (hw.busReply (log.length + 1) q.DEVADDR 5 % 256).testBit 1,
          (hw.busReply (log.length + 2) q.DEVADDR 5 % 256).testBit 2,
          (hw.busReply (log.length + 3) q.DEVADDR 5 % 256).testBit 3,
          (hw.busReply (log.length + 4) q.DEVADDR 5 % 256).testBit 4) := by
  refine ⟨?_, ?_, ?_, ?_, ?_, ?_, ?_⟩
  · rw [HCRCStatus_eq]; rfl
  · rw [mainSyncErrorStatus_eq]; rfl
  · rw [keyCalibrationStatus_eq]; rfl
  · rw [LSLStatus_eq]; rfl
  · rw [FMEAStatus_eq]; rfl
  · simp [allStatusFlags, HCRCStatus_eq, mainSyncErrorStatus_eq, keyCalibrationStatus_eq,
      LSLStatus_eq, FMEAStatus_eq, STATUS_ADDR, List.replicate]
  · simp [allStatusFlags, HCRCStatus_eq, mainSyncErrorStatus_eq, keyCalibrationStatus_eq,
      LSLStatus_eq, FMEAStatus_eq, STATUS_ADDR, Nat.add_assoc]

/-- C15, as stated, fails: with detect bytes `(0b00000100, 0, 0)` `scanKey`
returns from inside its first loop and has read register 6 only. -/
theorem scanKey_reads_counterexample :
    (scanKey (keyDevice 0b00000100 0 0) ⟨114⟩ []).2 = [Effect.busRead 114 6] ∧
      busReads (scanKey (keyDevice 0b00000100 0 0) ⟨114⟩ []).2 = 1 ∧
      (scanKey (keyDevice 0 0b00000100 0) ⟨114⟩ []).2 =
        [Effect.busRead 114 6, Effect.busRead 114 7] := by
  decide

/-- C15 (amended): every call of `scanKey` reads the key-detect registers in the
order 6, 7, 8, each at most once, stops after the register in which it finds a
key, and issues no other effect: it reads register 6 only when it returns a
value in [1, 8], registers 6 and 7 when it returns a value in [9, 16], and all
three, once each, when it returns 0 or a value in [17, 24]. -/
theorem scanKey_reads (hw : Hardware) (q : QT1244) (log : List Effect) :
    ((scanKey hw q log).2 = log ++ [Effect.busRead q.DEVADDR 6] ∧
        1 ≤ (scanKey hw q log).1 ∧ (scanKey hw q log).1 ≤ 8) ∨
      ((scanKey hw q log).2 = log ++ [Effect.busRead q.DEVADDR 6, Effect.busRead q.DEVADDR 7] ∧
        9 ≤ (scanKey hw q log).1 ∧ (scanKey hw q log).1 ≤ 16) ∨
      ((scanKey hw q log).2 = log ++ [Effect.busRead q.DEVADDR 6, Effect.busRead q.DEVADDR 7,
          Effect.busRead q.DEVADDR 8] ∧
        ((scanKey hw q log).1 = 0 ∨
          (17 ≤ (scanKey hw q log).1 ∧ (scanKey hw q log).1 ≤ 24))) :=
  scanKey_cases hw q log

/-- C16: for every key index `k` in [0, 23] the byte `calibrateKey(k)` writes
to the command register differs from `CALIBRATE_KEY_ALL` (0xFF),
`SETUPS_WRITE_ENABLE` (0xFE), `LOW_LEVEL_CAL_AND_OFFSET` (0xFD) and
`FORCE_RESET` (0x18), and these four command constants are pairwise distinct. -/
theorem calibrate_values_disjoint_from_commands (q : QT1244) (log : List Effect) :
    (∀ k, k ≤ 23 → ∃ v, (calibrateKey q k log).2 =
          log ++ [Effect.busWrite q.DEVADDR COMMAND_ADDR v] ∧
        v ≠ CALIBRATE_KEY_ALL ∧ v ≠ SETUPS_WRITE_ENABLE ∧ v ≠ LOW_LEVEL_CAL_AND_OFFSET ∧
        v ≠ FORCE_RESET) ∧
      [CALIBRATE_KEY_ALL, SETUPS_WRITE_ENABLE, LOW_LEVEL_CAL_AND_OFFSET, FORCE_RESET].Nodup ∧
      [CALIBRATE_KEY_ALL, SETUPS_WRITE_ENABLE, LOW_LEVEL_CAL_AND_OFFSET, FORCE_RESET] =
        [0xFF, 0xFE, 0xFD, 0x18] := by
  refine ⟨?_, by decide, rfl⟩
  intro k hk
  refine ⟨k, ?_, ?_, ?_, ?_, ?_⟩
  · rw [calibrateKey_eq, if_pos hk]
  · simp only [CALIBRATE_KEY_ALL]; omega
  · simp only [SETUPS_WRITE_ENABLE]; omega
  · simp only [LOW_LEVEL_CAL_AND_OFFSET]; omega
  · simp only [FORCE_RESET]; omega

/-- Witness of C16: `calibrateKey(23)` writes a byte to the command register
that is none of the four command values. -/
theorem calibrate_values_disjoint_from_commands_witness :
    ∃ v, (calibrateKey ⟨114⟩ 23 []).2 = [] ++ [Effect.busWrite 114 COMMAND_ADDR v] ∧
      v ≠ CALIBRATE_KEY_ALL ∧ v ≠ SETUPS_WRITE_ENABLE ∧ v ≠ LOW_LEVEL_CAL_AND_OFFSET ∧
      v ≠ FORCE_RESET :=
  (calibrate_values_disjoint_from_commands ⟨114⟩ []).1 23 (by decide)

/-- C17, as stated, fails: when the bus write issued as effect number 3 fails,
or when every bus write fails, `setups` still returns true. -/
theorem setups_write_failure_counterexample :
    failedWrites (fun n => n == 3) (setups ⟨114⟩ []).2 = [3] ∧
      (failedWrites (fun _ => true) (setups ⟨114⟩ []).2).length = 17 ∧
      (setups ⟨114⟩ []).1 = true := by
  decide

/-- C17 (amended): `setups` does not look at the outcome of its bus writes: when
one or more of them fail it still issues all 17 writes and still returns
true. -/
theorem setups_ignores_write_failure (writeFails : Nat → Bool) (q : QT1244)
    (log : List Effect) :
    failedWrites writeFails (setups q log).2 ≠ [] →
      (setups q log).1 = true ∧ (setups q log).2.length = log.length + 17 := by
  intro _
  refine ⟨rfl, ?_⟩
  rw [setups_log]
  simp

/-- Witness of C17 (amended): the first bus write of `setups`, the write-enable
command, fails, and `setups` returns true after 17 writes. -/
theorem setups_ignores_write_failure_witness :
    (setups ⟨114⟩ []).1 = true ∧ (setups ⟨114⟩ []).2.length = ([] : List Effect).length + 17 :=
  setups_ignores_write_failure (fun n => n == 0) ⟨114⟩ [] (by decide)

/-- C18, as stated, fails: when the handle `qt1244Init()` returns is in state
`HAL_I2C_STATE_RESET` (0), `begin` has not returned after 100 tests of the
wait condition, and there is no number of tests after which it returns. -/
theorem begin_not_ready_counterexample :
    begin ⟨0⟩ 100 ⟨0⟩ 57 [] = none ∧
      ¬ ∃ fuel, (begin ⟨0⟩ fuel ⟨0⟩ 57 []).isSome = true := by
  refine ⟨by decide, ?_⟩
  rintro ⟨fuel, h⟩
  have hw : waitReady ⟨0⟩ fuel = none := waitReady_not_ready ⟨0⟩ (by decide) fuel
  simp [begin, hw] at h

/-- C18 (amended): `begin` returns, with true, when the transport handle
returned by the transport initialisation is in the ready state; when it is
not, the wait has no bound: `begin` does not return after any number of tests
of the wait condition, and no error is returned. -/
theorem begin_returns_iff_ready (hi2c : I2C_HandleTypeDef) (q : QT1244) (devAddr : Nat)
    (log : List Effect) :
    (hi2c.State = HAL_I2C_STATE_READY →
        ∀ fuel, ∃ q1, begin hi2c (fuel + 1) q devAddr log =
          some (true, q1, log ++ [Effect.i2cInit])) ∧
      (hi2c.State ≠ HAL_I2C_STATE_READY → ∀ fuel, begin hi2c fuel q devAddr log = none) := by
  constructor
  · intro h fuel
    simp [begin, waitReady_ready hi2c fuel h]
  · intro h fuel
    simp [begin, waitReady_not_ready hi2c h fuel]

/-- Witness of C18 (amended): a ready handle (state `0x20`) and a busy one
(state `0x24`). -/
theorem begin_returns_iff_ready_witness :
    (∃ q1, begin ⟨0x20⟩ 1 ⟨0⟩ 57 [] = some (true, q1, [] ++ [Effect.i2cInit])) ∧
      begin ⟨0x24⟩ 1000 ⟨0⟩ 57 [] = none :=
  ⟨(begin_returns_iff_ready ⟨0x20⟩ ⟨0⟩ 57 []).1 rfl 0,
    (begin_returns_iff_ready ⟨0x24⟩ ⟨0⟩ 57 []).2 (by decide) 1000⟩

/-- C19: `setups`, `softwareReset`, `hardwareReset`, `changeStatus`,
`calibrateKeyAll`, `calibrateKey`, `scanKey`, `debug` and the five status
accessors leave the stored device address unchanged for every input, only add
effects to the log, and every bus read or write they issue is addressed to
exactly the stored address. -/
theorem devaddr_frame (hw : Hardware) (q : QT1244) (log : List Effect) (op : Operation) :
    (call hw q log op).1 = q ∧ (call hw q log op).1.DEVADDR = q.DEVADDR ∧
      ∃ new, (call hw q log op).2 = log ++ new ∧ ∀ e ∈ new, addressedTo q.DEVADDR e := by
  refine ⟨by cases op <;> rfl, by cases op <;> rfl, ?_⟩
  cases op with
  | setups => exact ⟨_, setups_log q log, by simp [addressedTo]⟩
  | hardwareReset GPIOx GPIO_Pin =>
    exact ⟨[Effect.gpioWrite GPIOx GPIO_Pin GPIO_PIN_RESET, Effect.delayUs 10,
      Effect.gpioWrite GPIOx GPIO_Pin GPIO_PIN_SET], by simp [call, hardwareReset],
      by simp [addressedTo]⟩
  | softwareReset =>
    exact ⟨[Effect.busWrite q.DEVADDR COMMAND_ADDR (FORCE_RESET % 256), Effect.delayUs 10],
      by simp [call, softwareReset, qt1244Write], by simp [addressedTo]⟩
  | changeStatus GPIOx GPIO_Pin =>
    exact ⟨[Effect.gpioRead GPIOx GPIO_Pin], by simp [call, changeStatus],
      by simp [addressedTo]⟩
  | calibrateKeyAll =>
    exact ⟨[Effect.busWrite q.DEVADDR COMMAND_ADDR (CALIBRATE_KEY_ALL % 256)],
      by simp [call, calibrateKeyAll, qt1244Write], by simp [addressedTo]⟩
  | calibrateKey key =>
    by_cases hk : key ≤ 23
    · exact ⟨[Effect.busWrite q.DEVADDR COMMAND_ADDR key],
        by simp [call, calibrateKey_eq, hk], by simp [addressedTo]⟩
    · exact ⟨[], by simp [call, calibrateKey_eq, hk], by simp⟩
  | scanKey =>
    rcases scanKey_cases hw q log with ⟨h, _⟩ | ⟨h, _⟩ | ⟨h, _⟩
    · exact ⟨_, h, by simp [addressedTo]⟩
    · exact ⟨_, h, by simp [addressedTo]⟩
    · exact ⟨_, h, by simp [addressedTo]⟩
  | debug no => exact ⟨[], by simp [call, debug], by simp⟩
  | HCRCStatus =>
    exact ⟨[Effect.busRead q.DEVADDR STATUS_ADDR], by simp [call, HCRCStatus_eq],
      by simp [addressedTo]⟩
  | mainSyncErrorStatus =>
    exact ⟨[Effect.busRead q.DEVADDR STATUS_ADDR], by simp [call, mainSyncErrorStatus_eq],
      by simp [addressedTo]⟩
  | keyCalibrationStatus =>
    exact ⟨[Effect.busRead q.DEVADDR STATUS_ADDR], by simp [call, keyCalibrationStatus_eq],
      by simp [addressedTo]⟩
  | LSLStatus =>
    exact ⟨[Effect.busRead q.DEVADDR STATUS_ADDR], by simp [call, LSLStatus_eq],
      by simp [addressedTo]⟩
  | FMEAStatus =>
    exact ⟨[Effect.busRead q.DEVADDR STATUS_ADDR], by simp [call, FMEAStatus_eq],
      by simp [addressedTo]⟩

/-- C20: `calibrateKeyAll` issues exactly one effect, the write of `0xFF` to the
command register (address 140), and returns true; `softwareReset` issues the
write of `0x18` to the command register and then, after the write, the delay of
10 microseconds, and nothing else; neither issues a bus read. -/
theorem command_operations (q : QT1244) (log : List Effect) :
    calibrateKeyAll q log = (true, log ++ [Effect.busWrite q.DEVADDR 140 0xFF]) ∧
      softwareReset q log =
        log ++ [Effect.busWrite q.DEVADDR 140 0x18, Effect.delayUs 10] ∧
      busReads [Effect.busWrite q.DEVADDR 140 0xFF] = 0 ∧
      busReads [Effect.busWrite q.DEVADDR 140 0x18, Effect.delayUs 10] = 0 := by
  refine ⟨?_, ?_, rfl, rfl⟩
  · simp [calibrateKeyAll, qt1244Write, COMMAND_ADDR, CALIBRATE_KEY_ALL]
  · simp [softwareReset, qt1244Write, COMMAND_ADDR, FORCE_RESET]

/-! ## Lemmas on the CRC routine -/

theorem and_two_pow_ne_zero_iff (x k : Nat) : x &&& 2 ^ k ≠ 0 ↔ x.testBit k = true := by
  constructor
  · intro h
    by_contra hb
    apply h
    apply Nat.eq_of_testBit_eq
    intro j
    by_cases hj : k = j
    · subst hj
      simpa using hb
    · simp [Nat.testBit_two_pow, hj]
  · intro hb h
    have := (and_two_pow_eq_iff x k).2 hb
    rw [h] at this
    exact absurd this.symm (Nat.pos_iff_ne_zero.1 (Nat.two_pow_pos k))

theorem crcRound_testBit (W c i : Nat) :
    (crcRound W c).testBit i =
      ((decide (i < W) && (decide (1 ≤ i) && c.testBit (i - 1))) ^^
        (c.testBit 15 && (0x1021 : Nat).testBit i)) := by
  have e : c &&& 0x8000 ≠ 0 ↔ c.testBit 15 = true := and_two_pow_ne_zero_iff c 15
  unfold crcRound
  by_cases hb : c.testBit 15 = true
  · rw [if_pos (e.2 hb)]
    simp [hb]
  · rw [if_neg (fun h => hb (e.1 h))]
    simp only [Bool.not_eq_true] at hb
    simp [hb]

theorem crcDoWhile_eight (W c : Nat) : crcDoWhile W 8 c = (crcRound W)^[8] c := by
  simp [crcDoWhile]

theorem refCrcRound_eq (c : Nat) : refCrcRound 0x1021 c = crcRound 16 c := rfl

theorem testBit_0x1021_high (i : Nat) (hi : 16 ≤ i) : (0x1021 : Nat).testBit i = false :=
  Nat.testBit_lt_two_pow (Nat.lt_of_lt_of_le (by norm_num : (0x1021 : Nat) < 2 ^ 16)
    (Nat.pow_le_pow_right (by norm_num) hi))

theorem crcRound_mod (W : Nat) (hW : 16 ≤ W) (c : Nat) :
    crcRound W c % 2 ^ 16 = crcRound 16 (c % 2 ^ 16) := by
  apply Nat.eq_of_testBit_eq
  intro i
  simp only [Nat.testBit_mod_two_pow, crcRound_testBit]
  by_cases hi : i < 16
  · have hiW : i < W := by omega
    have hi1 : i - 1 < 16 := by omega
    simp [hi, hiW, hi1]
  · have hm := testBit_0x1021_high i (by omega)
    simp [hi, hm]

theorem crcRound_lt (c : Nat) : crcRound 16 c < 2 ^ 16 := by
  apply Nat.lt_pow_two_of_testBit
  intro i hi
  have h16 : ¬ i < 16 := by omega
  simp [crcRound_testBit, h16, testBit_0x1021_high i hi]

theorem crcRound_iterate_mod (W : Nat) (hW : 16 ≤ W) (n c : Nat) :
    (crcRound W)^[n] c % 2 ^ 16 = (crcRound 16)^[n] (c % 2 ^ 16) := by
  induction n generalizing c with
  | zero => rfl
  | succ n ih =>
    rw [Function.iterate_succ_apply, Function.iterate_succ_apply, ih, crcRound_mod W hW]

theorem crcRound_iterate_lt (n c : Nat) (hc : c < 2 ^ 16) : (crcRound 16)^[n] c < 2 ^ 16 := by
  induction n generalizing c with
  | zero => exact hc
  | succ n ih =>
    rw [Function.iterate_succ_apply]
    exact ih _ (crcRound_lt c)

theorem crcInit_mod (W : Nat) (hW : 16 ≤ W) (crc data : Nat) :
    ((crc % 2 ^ W) ^^^ (((data % 256) <<< 8) % 2 ^ W)) % 2 ^ 16 =
      (crc % 2 ^ 16 % 2 ^ 16) ^^^ ((data % 256) <<< 8) := by
  apply Nat.eq_of_testBit_eq
  intro i
  have e : (256 : Nat) = 2 ^ 8 := by norm_num
  rw [e]
  simp only [Nat.testBit_mod_two_pow, Nat.testBit_xor, Nat.testBit_shiftLeft]
  by_cases hi : i < 16
  · have hiW : i < W := by omega
    have hi8 : i - 8 < 8 := by omega
    simp [hi, hiW, hi8]
  · have hi8 : ¬ i - 8 < 8 := by omega
    simp [hi, hi8]

theorem step16_eq (crc data : Nat) :
    step16 crc data = (crcRound 16)^[8] ((crc % 2 ^ 16) ^^^ ((data % 256) <<< 8)) := rfl

theorem CRC16BitCalc_mod (W : Nat) (hW : 16 ≤ W) (crc data : Nat) :
    CRC16BitCalc W crc data % 2 ^ 16 = step16 (crc % 2 ^ 16) data := by
  unfold CRC16BitCalc
  simp only []
  rw [crcDoWhile_eight, crcRound_iterate_mod W hW, crcInit_mod W hW, step16_eq]

theorem step16_mod (crc data : Nat) : step16 (crc % 2 ^ 16) data = step16 crc data := by
  rw [step16_eq, step16_eq, Nat.mod_mod]

theorem crcFold_mod (W : Nat) (hW : 16 ≤ W) (bytes : List Nat) (a : Nat) :
    crcFold W a bytes % 2 ^ 16 = bytes.foldl step16 (a % 2 ^ 16) := by
  induction bytes generalizing a with
  | nil => rfl
  | cons b bs ih =>
    have := ih (CRC16BitCalc W a b)
    simp only [crcFold, List.foldl_cons] at this ⊢
    rw [this, CRC16BitCalc_mod W hW]

theorem crcRound_xor (W a b : Nat) :
    crcRound W (a ^^^ b) = crcRound W a ^^^ crcRound W b := by
  apply Nat.eq_of_testBit_eq
  intro i
  simp only [Nat.testBit_xor, crcRound_testBit]
  cases decide (i < W) <;> cases decide (1 ≤ i) <;> cases a.testBit (i - 1) <;>
    cases b.testBit (i - 1) <;> cases a.testBit 15 <;> cases b.testBit 15 <;>
    cases (0x1021 : Nat).testBit i <;> rfl

theorem crcRound_iterate_xor (W n a b : Nat) :
    (crcRound W)^[n] (a ^^^ b) = (crcRound W)^[n] a ^^^ (crcRound W)^[n] b := by
  induction n generalizing a b with
  | zero => rfl
  | succ n ih =>
    rw [Function.iterate_succ_apply, Function.iterate_succ_apply, Function.iterate_succ_apply,
      crcRound_xor, ih]

theorem crcInit_xor (W a b x y : Nat) :
    (((a ^^^ b) % 2 ^ W) ^^^ ((((x ^^^ y) % 256) <<< 8) % 2 ^ W)) =
      ((a % 2 ^ W) ^^^ (((x % 256) <<< 8) % 2 ^ W)) ^^^
        ((b % 2 ^ W) ^^^ (((y % 256) <<< 8) % 2 ^ W)) := by
  apply Nat.eq_of_testBit_eq
  intro i
  have e : (256 : Nat) = 2 ^ 8 := by norm_num
  rw [e]
  simp only [Nat.testBit_mod_two_pow, Nat.testBit_xor, Nat.testBit_shiftLeft]
  cases decide (i < W) <;> cases decide (i ≥ 8) <;> cases decide (i - 8 < 8) <;>
    cases a.testBit i <;> cases b.testBit i <;> cases x.testBit (i - 8) <;>
    cases y.testBit (i - 8) <;> rfl

theorem CRC16BitCalc_xor (W a b x y : Nat) :
    CRC16BitCalc W (a ^^^ b) (x ^^^ y) = CRC16BitCalc W a x ^^^ CRC16BitCalc W b y := by
  unfold CRC16BitCalc
  simp only []
  rw [crcDoWhile_eight, crcDoWhile_eight, crcDoWhile_eight, crcInit_xor, crcRound_iterate_xor]

theorem CRC16BitCalc_zero (W : Nat) : CRC16BitCalc W 0 0 = 0 := by
  simp [CRC16BitCalc, crcDoWhile, crcRound]

theorem crcFold_zeros (W n : Nat) : crcFold W 0 (List.replicate n 0) = 0 := by
  induction n with
  | zero => rfl
  | succ n ih =>
    simp only [crcFold, List.replicate_succ, List.foldl_cons, CRC16BitCalc_zero] at ih ⊢
    exact ih

theorem crcRound_injOn (c d : Nat) (hc : c < 2 ^ 16) (hd : d < 2 ^ 16)
    (h : crcRound 16 c = crcRound 16 d) : c = d := by
  have hb : ∀ i, (crcRound 16 c).testBit i = (crcRound 16 d).testBit i := by
    intro i; rw [h]
  simp only [crcRound_testBit] at hb
  have h15 : c.testBit 15 = d.testBit 15 := by
    have := hb 0
    simpa using this
  apply Nat.eq_of_testBit_eq
  intro j
  rcases Nat.lt_trichotomy j 15 with hj | hj | hj
  · have := hb (j + 1)
    have hj16 : j + 1 < 16 := by omega
    simp only [hj16, decide_True, Bool.true_and, Nat.add_sub_cancel, h15,
      show 1 ≤ j + 1 from by omega] at this
    exact Bool.xor_left_inj.1 (by rw [Bool.xor_comm, this, Bool.xor_comm]) 
  · rw [hj]; exact h15
  · rw [Nat.testBit_lt_two_pow (Nat.lt_of_lt_of_le hc (Nat.pow_le_pow_right (by norm_num) hj)),
      Nat.testBit_lt_two_pow (Nat.lt_of_lt_of_le hd (Nat.pow_le_pow_right (by norm_num) hj))]

theorem crcRound_iterate_injOn (n c d : Nat) (hc : c < 2 ^ 16) (hd : d < 2 ^ 16)
    (h : (crcRound 16)^[n] c = (crcRound 16)^[n] d) : c = d := by
  induction n generalizing c d with
  | zero => exact h
  | succ n ih =>
    rw [Function.iterate_succ_apply, Function.iterate_succ_apply] at h
    exact crcRound_injOn c d hc hd (ih _ _ (crcRound_lt c) (crcRound_lt d) h)

theorem crcInit_lt (c d : Nat) : (c % 2 ^ 16) ^^^ ((d % 256) <<< 8) < 2 ^ 16 := by
  apply Nat.xor_lt_two_pow (Nat.mod_lt _ (by norm_num))
  rw [Nat.shiftLeft_eq]
  omega

theorem step16_lt (c d : Nat) : step16 c d < 2 ^ 16 := by
  rw [step16_eq]
  exact crcRound_iterate_lt 8 _ (crcInit_lt c d)

theorem step16_inj_crc (c1 c2 d : Nat) (h1 : c1 < 2 ^ 16) (h2 : c2 < 2 ^ 16)
    (h : step16 c1 d = step16 c2 d) : c1 = c2 := by
  rw [step16_eq, step16_eq] at h
  have := crcRound_iterate_injOn 8 _ _ (crcInit_lt c1 d) (crcInit_lt c2 d) h
  rw [Nat.xor_left_inj, Nat.mod_eq_of_lt h1, Nat.mod_eq_of_lt h2] at this
  exact this

theorem step16_inj_data (c x y : Nat) (hx : x < 256) (hy : y < 256)
    (h : step16 c x = step16 c y) : x = y := by
  rw [step16_eq, step16_eq] at h
  have := crcRound_iterate_injOn 8 _ _ (crcInit_lt c x) (crcInit_lt c y) h
  rw [Nat.xor_right_inj, Nat.shiftLeft_eq, Nat.shiftLeft_eq] at this
  omega

theorem foldl_step16_lt (bytes : List Nat) (a : Nat) (ha : a < 2 ^ 16) :
    bytes.foldl step16 a < 2 ^ 16 := by
  induction bytes generalizing a with
  | nil => exact ha
  | cons b bs ih => exact ih _ (step16_lt a b)

theorem foldl_step16_ne (bytes : List Nat) (a b : Nat) (ha : a < 2 ^ 16) (hb : b < 2 ^ 16)
    (hab : a ≠ b) : bytes.foldl step16 a ≠ bytes.foldl step16 b := by
  induction bytes generalizing a b with
  | nil => exact hab
  | cons d ds ih =>
    exact ih _ _ (step16_lt a d) (step16_lt b d) (fun h => hab (step16_inj_crc a b d ha hb h))

theorem scanLoop_not_single (key : Nat) (hne : ∀ i, i < 8 → key ≠ 2 ^ i) :
    scanLoop key 8 0 1 = none ∧ scanLoop key 8 8 1 = none ∧ scanLoop key 8 16 1 = none := by
  have h0 : key ≠ 1 := hne 0 (by norm_num)
  have h1 : key ≠ 2 := hne 1 (by norm_num)
  have h2 : key ≠ 4 := hne 2 (by norm_num)
  have h3 : key ≠ 8 := hne 3 (by norm_num)
  have h4 : key ≠ 16 := hne 4 (by norm_num)
  have h5 : key ≠ 32 := hne 5 (by norm_num)
  have h6 : key ≠ 64 := hne 6 (by norm_num)
  have h7 : key ≠ 128 := hne 7 (by norm_num)
  simp [scanLoop, h0, h1, h2, h3, h4, h5, h6, h7]

theorem keyBytes_numerals (hw : Hardware) (dev b0 b1 b2 : Nat) (h : KeyBytes hw dev b0 b1 b2) :
    ∀ n, hw.busReply n dev 6 = b0 ∧ hw.busReply n dev 7 = b1 ∧ hw.busReply n dev 8 = b2 := h

theorem scanKey_eq_first (hw : Hardware) (q : QT1244) (log : List Effect) (b0 b1 b2 r : Nat)
    (h : KeyBytes hw q.DEVADDR b0 b1 b2) (h0 : scanLoop (b0 % 256) 8 0 1 = some r) :
    scanKey hw q log = (r, log ++ [Effect.busRead q.DEVADDR 6]) := by
  have hk := keyBytes_numerals hw _ _ _ _ h
  simp [scanKey, qt1244Read, (hk _).1, h0, KEY_0TO7_ADDR, KEY_8TO15_ADDR, KEY_16TO23_ADDR]

theorem scanKey_eq_second (hw : Hardware) (q : QT1244) (log : List Effect) (b0 b1 b2 r : Nat)
    (h : KeyBytes hw q.DEVADDR b0 b1 b2) (h0 : scanLoop (b0 % 256) 8 0 1 = none)
    (h1 : scanLoop (b1 % 256) 8 8 1 = some r) :
    scanKey hw q log = (r, log ++ [Effect.busRead q.DEVADDR 6, Effect.busRead q.DEVADDR 7]) := by
  have hk := keyBytes_numerals hw _ _ _ _ h
  simp [scanKey, qt1244Read, (hk _).1, (hk _).2.1, h0, h1, KEY_0TO7_ADDR, KEY_8TO15_ADDR,
    KEY_16TO23_ADDR]

theorem scanKey_eq_third (hw : Hardware) (q : QT1244) (log : List Effect) (b0 b1 b2 r : Nat)
    (h : KeyBytes hw q.DEVADDR b0 b1 b2) (h0 : scanLoop (b0 % 256) 8 0 1 = none)
    (h1 : scanLoop (b1 % 256) 8 8 1 = none) (h2 : scanLoop (b2 % 256) 8 16 1 = some r) :
    scanKey hw q log = (r, log ++ [Effect.busRead q.DEVADDR 6, Effect.busRead q.DEVADDR 7,
      Effect.busRead q.DEVADDR 8]) := by
  have hk := keyBytes_numerals hw _ _ _ _ h
  simp [scanKey, qt1244Read, (hk _).1, (hk _).2.1, (hk _).2.2, h0, h1, h2, KEY_0TO7_ADDR,
    KEY_8TO15_ADDR, KEY_16TO23_ADDR]

theorem scanKey_eq_none (hw : Hardware) (q : QT1244) (log : List Effect) (b0 b1 b2 : Nat)
    (h : KeyBytes hw q.DEVADDR b0 b1 b2) (h0 : scanLoop (b0 % 256) 8 0 1 = none)
    (h1 : scanLoop (b1 % 256) 8 8 1 = none) (h2 : scanLoop (b2 % 256) 8 16 1 = none) :
    scanKey hw q log = (0, log ++ [Effect.busRead q.DEVADDR 6, Effect.busRead q.DEVADDR 7,
      Effect.busRead q.DEVADDR 8]) := by
  have hk := keyBytes_numerals hw _ _ _ _ h
  simp [scanKey, qt1244Read, (hk _).1, (hk _).2.1, (hk _).2.2, h0, h1, h2, KEY_0TO7_ADDR,
    KEY_8TO15_ADDR, KEY_16TO23_ADDR]

/-! ## The claims, concluded -/

/-- C21: for every reset pin, `hardwareReset` performs exactly the effects
"drive the pin low, delay 10 microseconds, drive the pin high" on that pin, in
this order; the last level written to the pin is high; and it issues no bus
read and no bus write. -/
theorem hardwareReset_sequence (GPIOx GPIO_Pin : Nat) (log : List Effect) :
    hardwareReset GPIOx GPIO_Pin log =
        log ++ [Effect.gpioWrite GPIOx GPIO_Pin false, Effect.delayUs 10,
          Effect.gpioWrite GPIOx GPIO_Pin true] ∧
      (hardwareReset GPIOx GPIO_Pin log).getLast? = some (Effect.gpioWrite GPIOx GPIO_Pin true) ∧
      busReads [Effect.gpioWrite GPIOx GPIO_Pin false, Effect.delayUs 10,
        Effect.gpioWrite GPIOx GPIO_Pin true] = 0 ∧
      writtenRegs [Effect.gpioWrite GPIOx GPIO_Pin false, Effect.delayUs 10,
        Effect.gpioWrite GPIOx GPIO_Pin true] = [] := by
  have h : hardwareReset GPIOx GPIO_Pin log =
      log ++ [Effect.gpioWrite GPIOx GPIO_Pin false, Effect.delayUs 10,
        Effect.gpioWrite GPIOx GPIO_Pin true] := by
    simp [hardwareReset, GPIO_PIN_RESET, GPIO_PIN_SET]
  refine ⟨h, ?_, rfl, rfl⟩
  rw [h]
  simp

/-- C22: for an `unsigned long` of at least 16 bits, every accumulator value
`crc` (bits above bit 15 included) and every byte, the low 16 bits of
`CRC16BitCalc(crc, data)` are `step16(crc mod 2^16, data)`, the 16-bit update
of the specification; and for every byte sequence the low 16 bits of the fold
of `CRC16BitCalc` from 0 are the fold of `step16` from 0. -/
theorem CRC16BitCalc_refines_step16 (W : Nat) (hW : 16 ≤ W) :
    (∀ crc data, CRC16BitCalc W crc data % 2 ^ 16 = step16 (crc % 2 ^ 16) data) ∧
      (∀ bytes : List Nat, crcFold W 0 bytes % 2 ^ 16 = bytes.foldl step16 0) := by
  refine ⟨fun crc data => CRC16BitCalc_mod W hW crc data, fun bytes => ?_⟩
  rw [crcFold_mod W hW]
  rfl

/-- Witness of C22: a 32-bit `unsigned long`, with an accumulator that has bits
above bit 15 set, and the fold over the block `"123456789"`. -/
theorem CRC16BitCalc_refines_step16_witness :
    CRC16BitCalc 32 0x12345678 0xA5 % 2 ^ 16 = step16 (0x12345678 % 2 ^ 16) 0xA5 ∧
      crcFold 32 0 [0x31, 0x32, 0x33, 0x34, 0x35, 0x36, 0x37, 0x38, 0x39] % 2 ^ 16 =
        [0x31, 0x32, 0x33, 0x34, 0x35, 0x36, 0x37, 0x38, 0x39].foldl step16 0 :=
  ⟨(CRC16BitCalc_refines_step16 32 (by decide)).1 0x12345678 0xA5,
    (CRC16BitCalc_refines_step16 32 (by decide)).2 _⟩

/-- C23: the exact decoding rule of `scanKey`. For detect bytes `(b0, b1, b2)`
at registers 6, 7, 8, let `j` be the first register whose byte is exactly a
one-bit value `1 << i` with `i` in [0, 7]: `scanKey` returns `8 * j + i + 1`
and has read registers 6 to `6 + j` only. If no byte is a one-bit value (each
is 0 or has two or more bits set) it returns 0, after reading all three. The
result is always in [0, 24]. -/
theorem scanKey_decoding_rule (hw : Hardware) (q : QT1244) (log : List Effect)
    (b0 b1 b2 : Nat) (h : KeyBytes hw q.DEVADDR b0 b1 b2) :
    (∀ i, i < 8 → b0 = 2 ^ i →
        scanKey hw q log = (8 * 0 + i + 1, log ++ [Effect.busRead q.DEVADDR 6])) ∧
      (∀ i, i < 8 → (∀ k, k < 8 → b0 % 256 ≠ 2 ^ k) → b1 = 2 ^ i →
        scanKey hw q log =
          (8 * 1 + i + 1, log ++ [Effect.busRead q.DEVADDR 6, Effect.busRead q.DEVADDR 7])) ∧
      (∀ i, i < 8 → (∀ k, k < 8 → b0 % 256 ≠ 2 ^ k) → (∀ k, k < 8 → b1 % 256 ≠ 2 ^ k) →
        b2 = 2 ^ i →
        scanKey hw q log =
          (8 * 2 + i + 1, log ++ [Effect.busRead q.DEVADDR 6, Effect.busRead q.DEVADDR 7,
            Effect.busRead q.DEVADDR 8])) ∧
      ((∀ k, k < 8 → b0 % 256 ≠ 2 ^ k) → (∀ k, k < 8 → b1 % 256 ≠ 2 ^ k) →
        (∀ k, k < 8 → b2 % 256 ≠ 2 ^ k) →
        scanKey hw q log =
          (0, log ++ [Effect.busRead q.DEVADDR 6, Effect.busRead q.DEVADDR 7,
            Effect.busRead q.DEVADDR 8])) ∧
      (scanKey hw q log).1 ≤ 24 := by
  have hmod : ∀ i, i < 8 → 2 ^ i % 256 = 2 ^ i := fun i hi =>
    Nat.mod_eq_of_lt (by
      calc 2 ^ i < 2 ^ 8 := Nat.pow_lt_pow_right (by norm_num) hi
        _ = 256 := by norm_num)
  refine ⟨?_, ?_, ?_, ?_, ?_⟩
  · intro i hi e0
    subst e0
    have := scanKey_eq_first hw q log _ b1 b2 _ h (by rw [hmod i hi]; exact (scanLoop_two_pow i hi).1)
    rw [this]
    simp
  · intro i hi n0 e1
    subst e1
    have := scanKey_eq_second hw q log b0 _ b2 _ h (scanLoop_not_single _ n0).1
      (by rw [hmod i hi]; exact (scanLoop_two_pow i hi).2.1)
    rw [this]
  · intro i hi n0 n1 e2
    subst e2
    have := scanKey_eq_third hw q log b0 b1 _ _ h (scanLoop_not_single _ n0).1
      (scanLoop_not_single _ n1).2.1 (by rw [hmod i hi]; exact (scanLoop_two_pow i hi).2.2)
    rw [this]
  · intro n0 n1 n2
    exact scanKey_eq_none hw q log b0 b1 b2 h (scanLoop_not_single _ n0).1
      (scanLoop_not_single _ n1).2.1 (scanLoop_not_single _ n2).2.2
  · rcases scanKey_cases hw q log with ⟨_, _, h2⟩ | ⟨_, _, h2⟩ | ⟨_, h2 | ⟨_, h2⟩⟩ <;> omega

/-- Witness of C23: detect bytes `(0b00000101, 0b00000100, 0)`: register 6 has
two bits set and is skipped, register 7 holds the one-bit value `1 << 2`, so the
result is `8 * 1 + 2 + 1 = 11` after reads of registers 6 and 7 only; and
detect bytes `(0b00000011, 0, 0b11000000)` give 0. -/
theorem scanKey_decoding_rule_witness :
    scanKey (keyDevice 5 4 0) ⟨114⟩ [] =
        (8 * 1 + 2 + 1, [] ++ [Effect.busRead 114 6, Effect.busRead 114 7]) ∧
      scanKey (keyDevice 3 0 192) ⟨114⟩ [] =
        (0, [] ++ [Effect.busRead 114 6, Effect.busRead 114 7, Effect.busRead 114 8]) :=
  ⟨(scanKey_decoding_rule (keyDevice 5 4 0) ⟨114⟩ [] 5 4 0 (keyBytes_keyDevice 114 5 4 0)).2.1
      2 (by decide) (by decide) (by decide),
    (scanKey_decoding_rule (keyDevice 3 0 192) ⟨114⟩ [] 3 0 192
      (keyBytes_keyDevice 114 3 0 192)).2.2.2.1 (by decide) (by decide) (by decide)⟩

/-- C24: for every key argument greater than 23, `calibrateKey` issues no bus
transaction at all (the log is left as it was) and leaves the controller
unchanged; so `calibrateKey(24)` does not write `0x18`, and `calibrateKey` of
253, 254, 255 does not write a command either. -/
theorem calibrateKey_out_of_range_no_effect (hw : Hardware) (q : QT1244) (log : List Effect)
    (key : Nat) (hkey : 23 < key) :
    (calibrateKey q key log).2 = log ∧ call hw q log (Operation.calibrateKey key) = (q, log) ∧
      (∀ v, Effect.busWrite q.DEVADDR COMMAND_ADDR v ∈ (calibrateKey q key log).2 →
        Effect.busWrite q.DEVADDR COMMAND_ADDR v ∈ log) := by
  have h : (calibrateKey q key log).2 = log := by
    rw [calibrateKey_eq, if_neg (by omega)]
  refine ⟨h, ?_, ?_⟩
  · simp only [call, h]
  · intro v hv
    rw [h] at hv
    exact hv

/-- Witness of C24: `calibrateKey` of 24, 253, 254 and 255 on an empty log
leaves the log empty. -/
theorem calibrateKey_out_of_range_no_effect_witness :
    (calibrateKey ⟨114⟩ 24 []).2 = [] ∧ (calibrateKey ⟨114⟩ 253 []).2 = [] ∧
      (calibrateKey ⟨114⟩ 254 []).2 = [] ∧ (calibrateKey ⟨114⟩ 255 []).2 = [] :=
  ⟨(calibrateKey_out_of_range_no_effect (constDevice 0) ⟨114⟩ [] 24 (by decide)).1,
    (calibrateKey_out_of_range_no_effect (constDevice 0) ⟨114⟩ [] 253 (by decide)).1,
    (calibrateKey_out_of_range_no_effect (constDevice 0) ⟨114⟩ [] 254 (by decide)).1,
    (calibrateKey_out_of_range_no_effect (constDevice 0) ⟨114⟩ [] 255 (by decide)).1⟩

/-- C25: with the field values configured in `qt1244.h`, `setups` issues exactly
17 bus writes to the bound device, in this order and nothing else: (140, 0xFE),
(141, 0x23), (165, 0xDA), (189, 0), (213, 0), (237, 20), (238, 0x10), (239, 25),
(240, 0), (241, 0x04), (242, 100), (243, 0x60), (244, 0xC0), (245, 1), (246, 6),
(247, 63), (248, 0x32); the sequence is the same whatever the log of earlier
calls is, and no value read from the device enters it. -/
theorem setups_exact_writes (q : QT1244) (log : List Effect) :
    (setups q log).2 = log ++
        [Effect.busWrite q.DEVADDR 140 0xFE, Effect.busWrite q.DEVADDR 141 0x23,
          Effect.busWrite q.DEVADDR 165 0xDA, Effect.busWrite q.DEVADDR 189 0x00,
          Effect.busWrite q.DEVADDR 213 0x00, Effect.busWrite q.DEVADDR 237 20,
          Effect.busWrite q.DEVADDR 238 0x10, Effect.busWrite q.DEVADDR 239 25,
          Effect.busWrite q.DEVADDR 240 0, Effect.busWrite q.DEVADDR 241 0x04,
          Effect.busWrite q.DEVADDR 242 100, Effect.busWrite q.DEVADDR 243 0x60,
          Effect.busWrite q.DEVADDR 244 0xC0, Effect.busWrite q.DEVADDR 245 1,
          Effect.busWrite q.DEVADDR 246 6, Effect.busWrite q.DEVADDR 247 63,
          Effect.busWrite q.DEVADDR 248 0x32] ∧
      (∀ log2 : List Effect,
        (setups q log).2.drop log.length = (setups q log2).2.drop log2.length) := by
  refine ⟨setups_log q log, fun log2 => ?_⟩
  rw [setups_log, setups_log, List.drop_left, List.drop_left]

/-- C26: for an `unsigned long` of at least 16 bits, the checksum detects every
single-byte change: two byte sequences that agree except for the byte at one
position have different low 16 bits of the fold of `CRC16BitCalc` from 0. For
a fixed byte the update is a bijection on the 16-bit accumulator values, and
for a fixed accumulator it is injective in the data byte. -/
theorem crc_detects_single_byte_change (W : Nat) (hW : 16 ≤ W) :
    (∀ (pre suf : List Nat) (x y : Nat), x < 256 → y < 256 → x ≠ y →
        crcFold W 0 (pre ++ x :: suf) % 2 ^ 16 ≠ crcFold W 0 (pre ++ y :: suf) % 2 ^ 16) ∧
      (∀ data, Set.BijOn (fun crc => CRC16BitCalc W crc data % 2 ^ 16)
        (Set.Iio (2 ^ 16)) (Set.Iio (2 ^ 16))) ∧
      (∀ crc x y, x < 256 → y < 256 →
        CRC16BitCalc W crc x % 2 ^ 16 = CRC16BitCalc W crc y % 2 ^ 16 → x = y) := by
  refine ⟨?_, ?_, ?_⟩
  · intro pre suf x y hx hy hxy
    rw [crcFold_mod W hW, crcFold_mod W hW, List.foldl_append, List.foldl_append,
      List.foldl_cons, List.foldl_cons]
    exact foldl_step16_ne suf _ _ (step16_lt _ x) (step16_lt _ y)
      (fun h => hxy (step16_inj_data _ x y hx hy h))
  · intro data
    have hm : Set.MapsTo (fun crc => CRC16BitCalc W crc data % 2 ^ 16)
        (Set.Iio (2 ^ 16)) (Set.Iio (2 ^ 16)) := by
      intro c _
      exact Nat.mod_lt _ (by norm_num)
    refine ((Set.finite_Iio (2 ^ 16 : Nat)).injOn_iff_bijOn_of_mapsTo hm).1 ?_
    intro c1 h1 c2 h2 h
    simp only [CRC16BitCalc_mod W hW, step16_mod] at h
    exact step16_inj_crc c1 c2 data h1 h2 h
  · intro crc x y hx hy h
    rw [CRC16BitCalc_mod W hW, CRC16BitCalc_mod W hW] at h
    exact step16_inj_data _ x y hx hy h

/-- Witness of C26: with a 32-bit `unsigned long`, the blocks `[1, 2, 3]` and
`[1, 7, 3]`, which differ in the middle byte, have different checksums. -/
theorem crc_detects_single_byte_change_witness :
    crcFold 32 0 ([1] ++ 2 :: [3]) % 2 ^ 16 ≠ crcFold 32 0 ([1] ++ 7 :: [3]) % 2 ^ 16 :=
  (crc_detects_single_byte_change 32 (by decide)).1 [1] [3] 2 7 (by decide) (by decide)
    (by decide)

/-- C27: `CRC16BitCalc` is linear over GF(2), for every width of `unsigned long`:
`CRC16BitCalc(a XOR b, x XOR y) = CRC16BitCalc(a, x) XOR CRC16BitCalc(b, y)` for
all accumulator values `a`, `b` and all bytes `x`, `y`; in particular
`CRC16BitCalc(0, 0) = 0`, and folding any number of `0x00` bytes from
accumulator 0 returns 0. -/
theorem CRC16BitCalc_linear (W : Nat) :
    (∀ a b x y, CRC16BitCalc W (a ^^^ b) (x ^^^ y) =
        CRC16BitCalc W a x ^^^ CRC16BitCalc W b y) ∧
      CRC16BitCalc W 0 0 = 0 ∧
      (∀ n, crcFold W 0 (List.replicate n 0x00) = 0) :=
  ⟨fun a b x y => CRC16BitCalc_xor W a b x y, CRC16BitCalc_zero W, fun n => crcFold_zeros W n⟩

end QT1244
